import Mathlib

/-!
Verification development for the pylox tree-walking Lox interpreter.

This file shallowly embeds the pylox pipeline (scanner, parser, resolver,
interpreter) in Lean 4 and proves properties of the embedding.  Each
definition is translated from the corresponding Python source file:

  * `pylox/token.py`       → `TokenType`, `Token`
  * `pylox/nodes/*.py`     → `LitVal`, `Expr`, `Stmt`
  * `pylox/scanner.py`     → `ScanSt`, `extract_token_and_advance`, `scan_tokens`
  * `pylox/parser.py`      → `PSt`, `parse`, `parse_declaration`, ...
  * `pylox/resolver.py`    → `RSt`, `resolveStmt`, ...
  * `pylox/environment.py` → `EnvData`, `envGet`, `envAssign`, `envGetAt`, ...
  * `pylox/interpreter.py` → `IState`, `evalExpr`, `execStmt`, ...

Modelling conventions:

  * Lox numbers are Python floats; they are modelled as rationals (`Rat`).
    Every numeric fact proved here involves only small dyadic values that
    IEEE-754 doubles represent exactly, so no rounding behaviour is lost.
    Python float division raises `ZeroDivisionError` when the divisor is
    exactly `0.0`; the model tests `= 0` on the rational divisor.
  * Python exceptions are modelled as explicit error results threaded with
    the mutated state (Python objects mutated before a `raise` keep their
    mutations, so every operation returns its updated state even on error).
  * Python object identity (`id(expr)`, used by `Distances` in
    `interpreter.py`) is modelled by an explicit `eid : Nat` field on the
    variable-reference expression constructors; the parser allocates these
    from a counter so that distinct occurrences get distinct ids.
  * Unbounded loops and recursion take an explicit fuel argument; running
    out of fuel yields the distinguished `fuelOut` outcome, never a real
    result.
-/

namespace Pylox

/-- Token kinds, from `TokenType` in `pylox/token.py` (the `TokenTypeType`
grouping tag carried by the Python enum has no behavioural role and is
dropped). -/
inductive TokenType where
  | LEFT_PAREN | RIGHT_PAREN | LEFT_BRACE | RIGHT_BRACE
  | COMMA | DOT | MINUS | PLUS | SEMICOLON | SLASH | STAR
  | BANG | BANG_EQUAL | EQUAL | EQUAL_EQUAL
  | GREATER | GREATER_EQUAL | LESS | LESS_EQUAL
  | IDENTIFIER | STRING | NUMBER
  | AND | CLASS | ELSE | FALSE | FUN | FOR | IF | NIL | OR
  | PRINT | RETURN | SUPER | THIS | TRUE | VAR | WHILE
  | COMMENT | EOF
  deriving DecidableEq

/-- Literal payload of a token: `None` for punctuation and keywords, the
parsed float for numbers, the unescaped contents for strings
(`pylox/token.py`, field `literal`). -/
inductive TokLit where
  | num (q : Rat)
  | str (s : String)
  deriving DecidableEq

/-- A token (`Token` in `pylox/token.py`). -/
structure Token where
  token_type : TokenType
  lexeme : String
  literal : Option TokLit
  line : Nat
  deriving DecidableEq

/-- Value of a `LiteralExpr` node: the parser stores `None`, `True`,
`False`, a float or a string in it (`parse_primary` in `pylox/parser.py`). -/
inductive LitVal where
  | nil
  | bool (b : Bool)
  | num (q : Rat)
  | str (s : String)
  deriving DecidableEq

/-- Expression nodes, from `pylox/nodes/expr.py`.  The `eid` fields model
Python object identity for the nodes the resolver keys on. -/
inductive Expr where
  | assign (eid : Nat) (name : Token) (value : Expr)
  | binary (left : Expr) (operator : Token) (right : Expr)
  | call (callee : Expr) (args : List Expr)
  | get (obj : Expr) (name : Token)
  | grouping (expr : Expr)
  | literal (value : LitVal)
  | logical (left : Expr) (operator : Token) (right : Expr)
  | setE (obj : Expr) (name : Token) (value : Expr)
  | superE (eid : Nat) (keyword : Token) (method : Token)
  | thisE (eid : Nat) (keyword : Token)
  | unary (operator : Token) (right : Expr)
  | var (eid : Nat) (name : Token)

/-- Statement nodes, from `pylox/nodes/stmt.py`.  A `FunStmt` is `funS`,
whose body is the `BlockStmt` built by `parse_function`; `classS` methods
are `funS` statements. -/
inductive Stmt where
  | block (statements : List Stmt)
  | classS (name : Token) (superclass : Option Expr) (methods : List Stmt)
  | exprS (expr : Expr)
  | funS (name : Token) (params : List Token) (body : Stmt)
  | forS (initializer : Option Stmt) (condition : Option Expr)
         (increment : Option Expr) (body : Stmt)
  | ifS (condition : Expr) (then_branch : Stmt) (else_branch : Option Stmt)
  | print (expr : Expr)
  | ret (keyword : Token) (value : Option Expr)
  | varS (name : Token) (initializer : Option Expr)
  | whileS (condition : Expr) (body : Stmt)

/-- Keyword table (`TokenType.from_keyword` in `pylox/token.py`); `none`
models the `ValueError` branch used by `Scanner._identifier`. -/
def TokenType.from_keyword : String → Option TokenType
  | "and" => some .AND
  | "class" => some .CLASS
  | "else" => some .ELSE
  | "false" => some .FALSE
  | "fun" => some .FUN
  | "for" => some .FOR
  | "if" => some .IF
  | "nil" => some .NIL
  | "or" => some .OR
  | "print" => some .PRINT
  | "return" => some .RETURN
  | "super" => some .SUPER
  | "this" => some .THIS
  | "true" => some .TRUE
  | "var" => some .VAR
  | "while" => some .WHILE
  | _ => none

/-! ## Scanner (`pylox/scanner.py`) -/

/-- Scanner state: class `Source` (fields `text`, `_current_position`,
`_lines_seen`). -/
structure ScanSt where
  text : List Char
  pos : Nat
  lines_seen : Nat
  deriving DecidableEq

/-- Property `Source.line`. -/
def ScanSt.line (st : ScanSt) : Nat := st.lines_seen + 1

/-- Property `Source.current_char`; `none` models the `IndexError` that
`self.text[self._current_position]` raises past the end. -/
def ScanSt.current_char (st : ScanSt) : Option Char := st.text.get? st.pos

/-- Property `Source.is_at_end`. -/
def ScanSt.is_at_end (st : ScanSt) : Bool := decide (st.text.length ≤ st.pos)

/-- Method `Source.peek`; `none` models its possible `IndexError`. -/
def ScanSt.peek (st : ScanSt) : Option Char := st.text.get? (st.pos + 1)

/-- Method `Source.check_next`. -/
def ScanSt.check_next (st : ScanSt) (c : Char) : Bool :=
  if st.text.length ≤ st.pos ∨ st.text.length ≤ st.pos + 1 then false
  else st.peek == some c

/-- Method `Source.advance` for a single step.  Python's `advance` reads
`current_char` (to count newlines) before incrementing the position; every
call site in `scanner.py` only advances over characters that exist, so the
out-of-bounds branch below is unreachable and just increments. -/
def ScanSt.advance (st : ScanSt) : ScanSt :=
  match st.text.get? st.pos with
  | some c =>
      { st with pos := st.pos + 1,
                lines_seen := if c = '\n' then st.lines_seen + 1 else st.lines_seen }
  | none => { st with pos := st.pos + 1 }

/-- Python `str.isspace` restricted to the ASCII whitespace characters. -/
def pyIsSpace (c : Char) : Bool :=
  c == ' ' || c == '\t' || c == '\n' || c == '\r' || c == '\x0b' || c == '\x0c'

/-- Exceptions that can escape `Scanner._extract_token_and_advance`:
`IndexError` (reading past the end of the text), `WhiteSpaceError`, and
`PyloxScanError` with its message and line.  `fuelOut` is the fuel
artefact of the embedding; it never occurs in any theorem below. -/
inductive ScanExc where
  | indexError
  | whiteSpaceError
  | scanError (message : String) (line : Nat)
  | fuelOut
  deriving DecidableEq

/-- Source slice `self.source[start : stop]` (method `Source.__getitem__`). -/
def sliceStr (text : List Char) (start stop : Nat) : String :=
  String.mk ((text.drop start).take (stop - start))

/-- Value of Python `float(text)` for the digit strings (`DIGIT+` or
`DIGIT+ . DIGIT+`) produced by `Scanner._number`, as an exact rational. -/
def digitsToNat (cs : List Char) : Nat :=
  cs.foldl (fun a c => a * 10 + (c.toNat - 48)) 0

/-- Parse a number lexeme to its rational value. -/
def parseFloat (cs : List Char) : Rat :=
  let intPart := cs.takeWhile (fun c => c ≠ '.')
  let fracPart := (cs.dropWhile (fun c => c ≠ '.')).drop 1
  mkRat (digitsToNat intPart * 10 ^ fracPart.length + digitsToNat fracPart)
    (10 ^ fracPart.length)

/-- The `while self.source.current_char.isspace(): advance` loop of the
whitespace case of `_extract_token_and_advance`: re-reading `current_char`
at the end of input raises `IndexError` out of the loop itself. -/
def skipSpaces : Nat → ScanSt → Option ScanExc × ScanSt
  | 0, st => (some .fuelOut, st)
  | fuel + 1, st =>
      match st.current_char with
      | none => (some .indexError, st)
      | some c => if pyIsSpace c then skipSpaces fuel st.advance else (none, st)

/-- The scan loop of `Scanner._comment`:
`while not (is_at_end or check_next("\n")): advance`. -/
def commentLoop : Nat → ScanSt → Option ScanExc × ScanSt
  | 0, st => (some .fuelOut, st)
  | fuel + 1, st =>
      if st.is_at_end || st.check_next '\n' then (none, st)
      else commentLoop fuel st.advance

/-- The scan loop of `Scanner._string`:
`while not (is_at_end or check_next(quote)): advance`. -/
def stringLoop : Nat → ScanSt → Option ScanExc × ScanSt
  | 0, st => (some .fuelOut, st)
  | fuel + 1, st =>
      if st.is_at_end || st.check_next '\x22' then (none, st)
      else stringLoop fuel st.advance

/-- The `while self.source.current_char.isnumeric(): advance` loops of
`Scanner._number`; reading `current_char` at the end raises `IndexError`. -/
def digitLoop : Nat → ScanSt → Option ScanExc × ScanSt
  | 0, st => (some .fuelOut, st)
  | fuel + 1, st =>
      match st.current_char with
      | none => (some .indexError, st)
      | some c => if c.isDigit then digitLoop fuel st.advance else (none, st)

/-- The `while current_char.isalnum() or current_char == underscore` loop of
`Scanner._identifier`. -/
def identLoop : Nat → ScanSt → Option ScanExc × ScanSt
  | 0, st => (some .fuelOut, st)
  | fuel + 1, st =>
      match st.current_char with
      | none => (some .indexError, st)
      | some c => if c.isAlphanum || c = '_' then identLoop fuel st.advance else (none, st)

/-- Method `Scanner._comment` (assumes current and next chars are both a
slash). -/
def scanComment (fuel : Nat) (st : ScanSt) : Except ScanExc Token × ScanSt :=
  let start := st.pos
  match commentLoop fuel st with
  | (some e, st₁) => (.error e, st₁)
  | (none, st₁) =>
      let st₂ := if !st₁.is_at_end then st₁.advance else st₁
      let text := sliceStr st₂.text start st₂.pos
      (.ok ⟨.COMMENT, text, none, st₂.line⟩, st₂)

/-- Method `Scanner._string` (assumes the current char is a double quote). -/
def scanString (fuel : Nat) (st : ScanSt) : Except ScanExc Token × ScanSt :=
  let start := st.pos
  match stringLoop fuel st with
  | (some e, st₁) => (.error e, st₁)
  | (none, st₁) =>
      if st₁.is_at_end then
        (.error (.scanError "Unterminated string." st₁.line), st₁)
      else
        let st₂ := st₁.advance.advance
        let text := (st₂.text.drop start).take (st₂.pos - start)
        (.ok ⟨.STRING, String.mk text, some (.str (String.mk (text.drop 1).dropLast)),
              st₂.line⟩, st₂)

/-- Method `Scanner._number`.  After the first digit loop exits normally the
current char exists; Python then evaluates `current_char == dot and
peek().isnumeric()`, where `peek` can itself raise `IndexError`. -/
def scanNumber (fuel : Nat) (st : ScanSt) : Except ScanExc Token × ScanSt :=
  let start := st.pos
  match digitLoop fuel st with
  | (some e, st₁) => (.error e, st₁)
  | (none, st₁) =>
      let finish := fun (st₂ : ScanSt) =>
        let text := (st₂.text.drop start).take (st₂.pos - start)
        ((Except.ok (⟨.NUMBER, String.mk text, some (.num (parseFloat text)), st₂.line⟩ : Token)), st₂)
      if st₁.current_char == some '.' then
        match st₁.peek with
        | none => (.error .indexError, st₁)
        | some p =>
            if p.isDigit then
              match digitLoop fuel st₁.advance with
              | (some e, st₂) => (.error e, st₂)
              | (none, st₂) => finish st₂
            else finish st₁
      else finish st₁

/-- Method `Scanner._identifier`. -/
def scanIdentifier (fuel : Nat) (st : ScanSt) : Except ScanExc Token × ScanSt :=
  let start := st.pos
  match identLoop fuel st with
  | (some e, st₁) => (.error e, st₁)
  | (none, st₁) =>
      let text := sliceStr st₁.text start st₁.pos
      let tt := match TokenType.from_keyword text with
                | some k => k
                | none => TokenType.IDENTIFIER
      (.ok ⟨tt, text, none, st₁.line⟩, st₁)

/-- A single-character token case of `_extract_token_and_advance`:
advance, then build the token with the post-advance line. -/
def singleCharTok (st : ScanSt) (tt : TokenType) (lex : String) :
    Except ScanExc Token × ScanSt :=
  let st' := st.advance
  (.ok ⟨tt, lex, none, st'.line⟩, st')

/-- A one-or-two-character operator case (`!`, `=`, `<`, `>`): if
`check_next` sees `=`, advance twice and emit the two-char token. -/
def twoCharTok (st : ScanSt) (tt1 : TokenType) (lex1 : String)
    (tt2 : TokenType) (lex2 : String) : Except ScanExc Token × ScanSt :=
  if st.check_next '=' then
    let st' := st.advance.advance
    (.ok ⟨tt2, lex2, none, st'.line⟩, st')
  else
    let st' := st.advance
    (.ok ⟨tt1, lex1, none, st'.line⟩, st')

/-- Method `Scanner._extract_token_and_advance`.  The `match` on
`current_char` raises `IndexError` at the end of input; the case order
follows the Python `match` statement. -/
def extract_token_and_advance (fuel : Nat) (st : ScanSt) :
    Except ScanExc Token × ScanSt :=
  match st.current_char with
  | none => (.error .indexError, st)
  | some c =>
      if c = '(' then singleCharTok st .LEFT_PAREN "("
      else if c = ')' then singleCharTok st .RIGHT_PAREN ")"
      else if c = '\x7b' then singleCharTok st .LEFT_BRACE "\x7b"
      else if c = '\x7d' then singleCharTok st .RIGHT_BRACE "\x7d"
      else if c = ',' then singleCharTok st .COMMA ","
      else if c = '.' then singleCharTok st .DOT "."
      else if c = '-' then singleCharTok st .MINUS "-"
      else if c = '+' then singleCharTok st .PLUS "+"
      else if c = ';' then singleCharTok st .SEMICOLON ";"
      else if c = '*' then singleCharTok st .STAR "*"
      else if c = '!' then twoCharTok st .BANG "!" .BANG_EQUAL "!="
      else if c = '=' then twoCharTok st .EQUAL "=" .EQUAL_EQUAL "=="
      else if c = '<' then twoCharTok st .LESS "<" .LESS_EQUAL "<="
      else if c = '>' then twoCharTok st .GREATER ">" .GREATER_EQUAL ">="
      else if c = '/' then
        if st.check_next '/' then scanComment fuel st
        else singleCharTok st .SLASH "/"
      else if pyIsSpace c then
        match skipSpaces fuel st with
        | (some e, st') => (.error e, st')
        | (none, st') => (.error .whiteSpaceError, st')
      else if c = '\x22' then scanString fuel st
      else if c.isDigit then scanNumber fuel st
      else if c.isAlpha || c = '_' then scanIdentifier fuel st
      else (.error (.scanError ("Unexpected character: " ++ String.mk [c]) st.line), st)

/-- The `while True` loop of `Scanner.scan_tokens`: `IndexError` appends the
`EOF` token and stops, `WhiteSpaceError` is skipped, and a `PyloxScanError`
propagates (it is not caught). -/
def scanLoop : Nat → ScanSt → Except ScanExc (List Token)
  | 0, _ => .error .fuelOut
  | fuel + 1, st =>
      match extract_token_and_advance (st.text.length + 1) st with
      | (.ok t, st') =>
          match scanLoop fuel st' with
          | .ok ts => .ok (t :: ts)
          | .error e => .error e
      | (.error .indexError, st') => .ok [⟨.EOF, "", none, st'.line⟩]
      | (.error .whiteSpaceError, st') => scanLoop fuel st'
      | (.error e, _) => .error e

/-- Method `Scanner.scan_tokens` on a source string (via
`Scanner.from_source`).  An uncaught `PyloxScanError` is the `.error`
result. -/
def scan_tokens (s : String) : Except ScanExc (List Token) :=
  scanLoop (s.length + 1) ⟨s.data, 0, 0⟩

/-! ## Parser (`pylox/parser.py`) -/

/-- The `FunctionType` enum of `pylox/constants.py`. -/
inductive FunctionType where
  | NONE | FUNCTION | METHOD | INITIALIZER
  deriving DecidableEq

/-- The `.value` payload of a `FunctionType` member. -/
def FunctionType.value : FunctionType → String
  | .NONE => "none"
  | .FUNCTION => "function"
  | .METHOD => "method"
  | .INITIALIZER => "initializer"

/-- The `ClassType` enum of `pylox/constants.py`. -/
inductive ClassType where
  | NONE | CLASS | SUBCLASS
  deriving DecidableEq

/-- A recorded `PyloxParseError` (message and source line of the token it
was raised from, per `PyloxReportableError.from_token`). -/
structure PErr where
  message : String
  line : Nat
  deriving DecidableEq

/-- Exceptions escaping parser methods: a raised `PyloxParseError`; the
`IndexError` from `Tokens.current_token` and the `RuntimeError` from
`Tokens.previous_token` at position 0 (neither is reachable in any run
below, since token lists end with `EOF`); and the fuel artefact. -/
inductive PExc where
  | parseError (e : PErr)
  | indexError
  | runtimeError
  | fuelOut
  deriving DecidableEq

/-- Parser state: class `Tokens` of `pylox/parser.py` (the token list,
`_current_position` and the shared `Errors` list), plus `nextId`, a counter
modelling Python object identity for the variable-reference nodes the
parser allocates. -/
structure PSt where
  tokens : List Token
  pos : Nat
  errors : List PErr
  nextId : Nat
  deriving DecidableEq

/-- Property `Tokens.current_token`; `tokens[pos]` raises `IndexError` out
of range. -/
def PSt.current_token (st : PSt) : Except PExc Token :=
  match st.tokens.get? st.pos with
  | some t => .ok t
  | none => .error .indexError

/-- Property `Tokens.previous_token`. -/
def PSt.previous_token (st : PSt) : Except PExc Token :=
  if st.pos = 0 then .error .runtimeError
  else match st.tokens.get? (st.pos - 1) with
       | some t => .ok t
       | none => .error .indexError

/-- Property `Tokens.is_at_end` (catches the `IndexError` as `True`). -/
def PSt.is_at_end (st : PSt) : Bool :=
  match st.tokens.get? st.pos with
  | some t => t.token_type == .EOF
  | none => true

/-- Method `Tokens.advance`. -/
def PSt.advance (st : PSt) : PSt := { st with pos := st.pos + 1 }

/-- Method `Tokens.check_token_type`. -/
def PSt.check_token_type (st : PSt) (tt : TokenType) : Bool :=
  if st.is_at_end then false
  else match st.tokens.get? st.pos with
       | some t => t.token_type == tt
       | none => false

/-- Method `Tokens.advance_if_match`. -/
def PSt.advance_if_match (st : PSt) : List TokenType → Bool × PSt
  | [] => (false, st)
  | tt :: rest =>
      if st.check_token_type tt then (true, st.advance)
      else st.advance_if_match rest

/-- Method `Errors.record` (the error list is shared between `Tokens` and
`Parser`, so it lives in `PSt`). -/
def PSt.record (st : PSt) (e : PErr) : PSt := { st with errors := st.errors ++ [e] }

/-- Method `Tokens.consume`: advance over a token of the given type, or
record and raise a `PyloxParseError` built from the current token. -/
def PSt.consume (st : PSt) (tt : TokenType) (message : String) :
    Except PExc Token × PSt :=
  if st.check_token_type tt then
    let st' := st.advance
    match st'.previous_token with
    | .ok t => (.ok t, st')
    | .error e => (.error e, st')
  else
    match st.current_token with
    | .ok t => (.error (.parseError ⟨message, t.line⟩), st.record ⟨message, t.line⟩)
    | .error e => (.error e, st)

/-- Fresh node identity for a parser-allocated variable-reference node. -/
def PSt.freshId (st : PSt) : Nat × PSt :=
  (st.nextId, { st with nextId := st.nextId + 1 })

/-- Abbreviated stand-in for Python's `repr` of a token, used only inside
the dynamic part of the `parse_primary` error message (no theorem below
depends on this text). -/
def tokenRepr (t : Token) : String := "Token(" ++ t.lexeme ++ ")"

/-- Token kinds at which `Parser.synchronize` stops. -/
def syncStarters : List TokenType :=
  [.CLASS, .FUN, .VAR, .FOR, .IF, .WHILE, .PRINT, .RETURN]

/-- The scan loop of `Parser.synchronize` (after its initial `advance`). -/
def syncLoop : Nat → PSt → PSt
  | 0, st => st
  | fuel + 1, st =>
      if st.is_at_end then st
      else
        match st.previous_token with
        | .error _ => st
        | .ok pt =>
            if pt.token_type == .SEMICOLON then st
            else
              match st.current_token with
              | .error _ => st
              | .ok ct =>
                  if syncStarters.contains ct.token_type then st
                  else syncLoop fuel st.advance

/-- Method `Parser.synchronize`. -/
def synchronize (fuel : Nat) (st : PSt) : PSt := syncLoop fuel st.advance

mutual

/-- Method `Parser.parse`: the `while not is_at_end` loop collecting
declarations.  An exception from `parse_declaration` propagates and the
collected statements are lost. -/
def parse : Nat → PSt → Except PExc (List Stmt) × PSt
  | 0, st => (.error .fuelOut, st)
  | fuel + 1, st =>
      if st.is_at_end then (.ok [], st)
      else
        match parse_declaration fuel st with
        | (.ok s, st₁) =>
            match parse fuel st₁ with
            | (.ok ss, st₂) => (.ok (s :: ss), st₂)
            | (.error e, st₂) => (.error e, st₂)
        | (.error e, st₁) => (.error e, st₁)

/-- Method `Parser.parse_declaration`, including its
`except PyloxParseError` handler: record the error again, synchronize, and
re-raise. -/
def parse_declaration : Nat → PSt → Except PExc Stmt × PSt
  | 0, st => (.error .fuelOut, st)
  | fuel + 1, st =>
      let inner :=
        let (m, st₁) := st.advance_if_match [.CLASS]
        if m then parse_class fuel st₁
        else
          let (m, st₂) := st₁.advance_if_match [.FUN]
          if m then parse_function fuel .FUNCTION st₂
          else
            let (m, st₃) := st₂.advance_if_match [.VAR]
            if m then parse_var fuel st₃
            else parse_statement fuel st₃
      match inner with
      | (.error (.parseError e), st') =>
          (.error (.parseError e), synchronize fuel (st'.record e))
      | r => r

/-- Method `Parser.parse_class`. -/
def parse_class : Nat → PSt → Except PExc Stmt × PSt
  | 0, st => (.error .fuelOut, st)
  | fuel + 1, st =>
      match st.consume .IDENTIFIER "Expect class name." with
      | (.error e, st₁) => (.error e, st₁)
      | (.ok name, st₁) =>
          let (m, st₂) := st₁.advance_if_match [.LESS]
          let superStep : Except PExc (Option Expr) × PSt :=
            if m then
              match st₂.consume .IDENTIFIER "Expect superclass name." with
              | (.ok sup, st₃) =>
                  let (i, st₄) := st₃.freshId
                  (.ok (some (.var i sup)), st₄)
              | (.error e, st₃) => (.error e, st₃)
            else (.ok none, st₂)
          match superStep with
          | (.error e, st₃) => (.error e, st₃)
          | (.ok superclass, st₃) =>
              match st₃.consume .LEFT_BRACE "Expect '\x7b' before class body." with
              | (.error e, st₄) => (.error e, st₄)
              | (.ok _, st₄) =>
                  match methodLoop fuel st₄ [] with
                  | (.error e, st₅) => (.error e, st₅)
                  | (.ok methods, st₅) =>
                      match st₅.consume .RIGHT_BRACE "Expect '\x7d' after class body." with
                      | (.error e, st₆) => (.error e, st₆)
                      | (.ok _, st₆) =>
                          (.ok (.classS name superclass methods), st₆)

/-- The method-collection loop of `parse_class`. -/
def methodLoop : Nat → PSt → List Stmt → Except PExc (List Stmt) × PSt
  | 0, st, _ => (.error .fuelOut, st)
  | fuel + 1, st, acc =>
      if !st.check_token_type .RIGHT_BRACE && !st.is_at_end then
        match parse_function fuel .METHOD st with
        | (.ok m, st₁) => methodLoop fuel st₁ (acc ++ [m])
        | (.error e, st₁) => (.error e, st₁)
      else (.ok acc, st)

/-- Method `Parser.parse_function` for the given function kind. -/
def parse_function : Nat → FunctionType → PSt → Except PExc Stmt × PSt
  | 0, _, st => (.error .fuelOut, st)
  | fuel + 1, function_type, st =>
      let kind := function_type.value
      match st.consume .IDENTIFIER ("Expect " ++ kind ++ " name.") with
      | (.error e, st₁) => (.error e, st₁)
      | (.ok name, st₁) =>
          match st₁.consume .LEFT_PAREN ("Expect '(' after " ++ kind ++ " name.") with
          | (.error e, st₂) => (.error e, st₂)
          | (.ok _, st₂) =>
              let paramStep : Except PExc (List Token) × PSt :=
                if !st₂.check_token_type .RIGHT_PAREN then paramLoop fuel st₂ []
                else (.ok [], st₂)
              match paramStep with
              | (.error e, st₃) => (.error e, st₃)
              | (.ok parameters, st₃) =>
                  match st₃.consume .RIGHT_PAREN "Expect ')' after parameters." with
                  | (.error e, st₄) => (.error e, st₄)
                  | (.ok _, st₄) =>
                      match st₄.consume .LEFT_BRACE
                          ("Expect '\x7b' before " ++ kind ++ " body.") with
                      | (.error e, st₅) => (.error e, st₅)
                      | (.ok _, st₅) =>
                          match parse_block fuel st₅ with
                          | (.error e, st₆) => (.error e, st₆)
                          | (.ok body, st₆) =>
                              (.ok (.funS name parameters (.block body)), st₆)

/-- The parameter loop of `parse_function`: at 255 or more already-collected
parameters the error is recorded (built from the current token) but not
raised, and parsing continues. -/
def paramLoop : Nat → PSt → List Token → Except PExc (List Token) × PSt
  | 0, st, _ => (.error .fuelOut, st)
  | fuel + 1, st, acc =>
      let recStep : Except PExc PSt :=
        if acc.length ≥ 255 then
          match st.current_token with
          | .ok t => .ok (st.record ⟨"Cannot have more than 255 parameters.", t.line⟩)
          | .error e => .error e
        else .ok st
      match recStep with
      | .error e => (.error e, st)
      | .ok st₁ =>
          match st₁.consume .IDENTIFIER "Expect parameter name." with
          | (.error e, st₂) => (.error e, st₂)
          | (.ok p, st₂) =>
              let (m, st₃) := st₂.advance_if_match [.COMMA]
              if m then paramLoop fuel st₃ (acc ++ [p])
              else (.ok (acc ++ [p]), st₃)

/-- Method `Parser.parse_var`. -/
def parse_var : Nat → PSt → Except PExc Stmt × PSt
  | 0, st => (.error .fuelOut, st)
  | fuel + 1, st =>
      match st.consume .IDENTIFIER "Expect variable name." with
      | (.error e, st₁) => (.error e, st₁)
      | (.ok name, st₁) =>
          let (m, st₂) := st₁.advance_if_match [.EQUAL]
          let initStep : Except PExc (Option Expr) × PSt :=
            if m then
              match parse_expression fuel st₂ with
              | (.ok e, st₃) => (.ok (some e), st₃)
              | (.error e, st₃) => (.error e, st₃)
            else (.ok none, st₂)
          match initStep with
          | (.error e, st₃) => (.error e, st₃)
          | (.ok initializer, st₃) =>
              match st₃.consume .SEMICOLON "Expect ';' after variable declaration." with
              | (.error e, st₄) => (.error e, st₄)
              | (.ok _, st₄) => (.ok (.varS name initializer), st₄)

/-- Method `Parser.parse_statement`. -/
def parse_statement : Nat → PSt → Except PExc Stmt × PSt
  | 0, st => (.error .fuelOut, st)
  | fuel + 1, st =>
      let (m, st₁) := st.advance_if_match [.FOR]
      if m then parse_for fuel st₁
      else
        let (m, st₂) := st₁.advance_if_match [.IF]
        if m then parse_if fuel st₂
        else
          let (m, st₃) := st₂.advance_if_match [.PRINT]
          if m then parse_print fuel st₃
          else
            let (m, st₄) := st₃.advance_if_match [.RETURN]
            if m then parse_return fuel st₄
            else
              let (m, st₅) := st₄.advance_if_match [.WHILE]
              if m then parse_while fuel st₅
              else
                let (m, st₆) := st₅.advance_if_match [.LEFT_BRACE]
                if m then
                  match parse_block fuel st₆ with
                  | (.ok ss, st₇) => (.ok (.block ss), st₇)
                  | (.error e, st₇) => (.error e, st₇)
                else parse_expression_statement fuel st₆

/-- Method `Parser.parse_for`. -/
def parse_for : Nat → PSt → Except PExc Stmt × PSt
  | 0, st => (.error .fuelOut, st)
  | fuel + 1, st =>
      match st.consume .LEFT_PAREN "Expect '(' after 'for'." with
      | (.error e, st₁) => (.error e, st₁)
      | (.ok _, st₁) =>
          let initStep : Except PExc (Option Stmt) × PSt :=
            let (m, st₂) := st₁.advance_if_match [.SEMICOLON]
            if m then (.ok none, st₂)
            else
              let (m, st₃) := st₂.advance_if_match [.VAR]
              if m then
                match parse_var fuel st₃ with
                | (.ok s, st₄) => (.ok (some s), st₄)
                | (.error e, st₄) => (.error e, st₄)
              else
                match parse_expression_statement fuel st₃ with
                | (.ok s, st₄) => (.ok (some s), st₄)
                | (.error e, st₄) => (.error e, st₄)
          match initStep with
          | (.error e, st₂) => (.error e, st₂)
          | (.ok initializer, st₂) =>
              let condStep : Except PExc (Option Expr) × PSt :=
                if st₂.check_token_type .SEMICOLON then (.ok none, st₂)
                else
                  match parse_expression fuel st₂ with
                  | (.ok e, st₃) => (.ok (some e), st₃)
                  | (.error e, st₃) => (.error e, st₃)
              match condStep with
              | (.error e, st₃) => (.error e, st₃)
              | (.ok condition, st₃) =>
                  match st₃.consume .SEMICOLON "Expect ';' after for condition." with
                  | (.error e, st₄) => (.error e, st₄)
                  | (.ok _, st₄) =>
                      let incStep : Except PExc (Option Expr) × PSt :=
                        if st₄.check_token_type .RIGHT_PAREN then (.ok none, st₄)
                        else
                          match parse_expression fuel st₄ with
                          | (.ok e, st₅) => (.ok (some e), st₅)
                          | (.error e, st₅) => (.error e, st₅)
                      match incStep with
                      | (.error e, st₅) => (.error e, st₅)
                      | (.ok increment, st₅) =>
                          match st₅.consume .RIGHT_PAREN "Expect ')' after for clauses." with
                          | (.error e, st₆) => (.error e, st₆)
                          | (.ok _, st₆) =>
                              match parse_statement fuel st₆ with
                              | (.error e, st₇) => (.error e, st₇)
                              | (.ok body, st₇) =>
                                  (.ok (.forS initializer condition increment body), st₇)

/-- Method `Parser.parse_if`. -/
def parse_if : Nat → PSt → Except PExc Stmt × PSt
  | 0, st => (.error .fuelOut, st)
  | fuel + 1, st =>
      match st.consume .LEFT_PAREN "Expect '(' after 'if'." with
      | (.error e, st₁) => (.error e, st₁)
      | (.ok _, st₁) =>
          match parse_expression fuel st₁ with
          | (.error e, st₂) => (.error e, st₂)
          | (.ok condition, st₂) =>
              match st₂.consume .RIGHT_PAREN "Expect ')' after if condition." with
              | (.error e, st₃) => (.error e, st₃)
              | (.ok _, st₃) =>
                  match parse_statement fuel st₃ with
                  | (.error e, st₄) => (.error e, st₄)
                  | (.ok then_branch, st₄) =>
                      let (m, st₅) := st₄.advance_if_match [.ELSE]
                      if m then
                        match parse_statement fuel st₅ with
                        | (.error e, st₆) => (.error e, st₆)
                        | (.ok else_branch, st₆) =>
                            (.ok (.ifS condition then_branch (some else_branch)), st₆)
                      else (.ok (.ifS condition then_branch none), st₅)

/-- Method `Parser.parse_print`. -/
def parse_print : Nat → PSt → Except PExc Stmt × PSt
  | 0, st => (.error .fuelOut, st)
  | fuel + 1, st =>
      match parse_expression fuel st with
      | (.error e, st₁) => (.error e, st₁)
      | (.ok expr, st₁) =>
          match st₁.consume .SEMICOLON "Expect ';' after value." with
          | (.error e, st₂) => (.error e, st₂)
          | (.ok _, st₂) => (.ok (.print expr), st₂)

/-- Method `Parser.parse_return`. -/
def parse_return : Nat → PSt → Except PExc Stmt × PSt
  | 0, st => (.error .fuelOut, st)
  | fuel + 1, st =>
      match st.previous_token with
      | .error e => (.error e, st)
      | .ok keyword =>
          let valStep : Except PExc (Option Expr) × PSt :=
            if st.check_token_type .SEMICOLON then (.ok none, st)
            else
              match parse_expression fuel st with
              | (.ok e, st₁) => (.ok (some e), st₁)
              | (.error e, st₁) => (.error e, st₁)
          match valStep with
          | (.error e, st₁) => (.error e, st₁)
          | (.ok value, st₁) =>
              match st₁.consume .SEMICOLON "Expect ';' after return value." with
              | (.error e, st₂) => (.error e, st₂)
              | (.ok _, st₂) => (.ok (.ret keyword value), st₂)

/-- Method `Parser.parse_while`. -/
def parse_while : Nat → PSt → Except PExc Stmt × PSt
  | 0, st => (.error .fuelOut, st)
  | fuel + 1, st =>
      match st.consume .LEFT_PAREN "Expect '(' after 'while'." with
      | (.error e, st₁) => (.error e, st₁)
      | (.ok _, st₁) =>
          match parse_expression fuel st₁ with
          | (.error e, st₂) => (.error e, st₂)
          | (.ok condition, st₂) =>
              match st₂.consume .RIGHT_PAREN "Expect ')' after while condition." with
              | (.error e, st₃) => (.error e, st₃)
              | (.ok _, st₃) =>
                  match parse_statement fuel st₃ with
                  | (.error e, st₄) => (.error e, st₄)
                  | (.ok body, st₄) => (.ok (.whileS condition body), st₄)

/-- Method `Parser.parse_block`: collect declarations, then consume the
closing brace (whose error message interpolates the current token). -/
def parse_block : Nat → PSt → Except PExc (List Stmt) × PSt
  | 0, st => (.error .fuelOut, st)
  | fuel + 1, st =>
      match blockLoop fuel st [] with
      | (.error e, st₁) => (.error e, st₁)
      | (.ok result, st₁) =>
          match st₁.current_token with
          | .error e => (.error e, st₁)
          | .ok cur =>
              match st₁.consume .RIGHT_BRACE
                  ("Expect '\x7d' after block on token: " ++ cur.lexeme ++ ".") with
              | (.error e, st₂) => (.error e, st₂)
              | (.ok _, st₂) => (.ok result, st₂)

/-- The declaration-collection loop of `parse_block`. -/
def blockLoop : Nat → PSt → List Stmt → Except PExc (List Stmt) × PSt
  | 0, st, _ => (.error .fuelOut, st)
  | fuel + 1, st, acc =>
      if !st.check_token_type .RIGHT_BRACE && !st.is_at_end then
        match parse_declaration fuel st with
        | (.ok s, st₁) => blockLoop fuel st₁ (acc ++ [s])
        | (.error e, st₁) => (.error e, st₁)
      else (.ok acc, st)

/-- Method `Parser.parse_expression_statement`. -/
def parse_expression_statement : Nat → PSt → Except PExc Stmt × PSt
  | 0, st => (.error .fuelOut, st)
  | fuel + 1, st =>
      match parse_expression fuel st with
      | (.error e, st₁) => (.error e, st₁)
      | (.ok expr, st₁) =>
          match st₁.consume .SEMICOLON "Expect ';' after expression." with
          | (.error e, st₂) => (.error e, st₂)
          | (.ok _, st₂) => (.ok (.exprS expr), st₂)

/-- Method `Parser.parse_expression`. -/
def parse_expression : Nat → PSt → Except PExc Expr × PSt
  | 0, st => (.error .fuelOut, st)
  | fuel + 1, st => parse_assignment fuel st

/-- Method `Parser.parse_assignment`. -/
def parse_assignment : Nat → PSt → Except PExc Expr × PSt
  | 0, st => (.error .fuelOut, st)
  | fuel + 1, st =>
      match parse_or fuel st with
      | (.error e, st₁) => (.error e, st₁)
      | (.ok expr, st₁) =>
          let (m, st₂) := st₁.advance_if_match [.EQUAL]
          if m then
            match st₂.previous_token with
            | .error e => (.error e, st₂)
            | .ok equals =>
                match parse_assignment fuel st₂ with
                | (.error e, st₃) => (.error e, st₃)
                | (.ok value, st₃) =>
                    match expr with
                    | .var _ name =>
                        let (i, st₄) := st₃.freshId
                        (.ok (.assign i name value), st₄)
                    | .get obj name => (.ok (.setE obj name value), st₃)
                    | _ =>
                        let e : PErr := ⟨"Invalid assignment target.", equals.line⟩
                        (.error (.parseError e), st₃.record e)
          else (.ok expr, st₂)

/-- Method `Parser.parse_or`. -/
def parse_or : Nat → PSt → Except PExc Expr × PSt
  | 0, st => (.error .fuelOut, st)
  | fuel + 1, st =>
      match parse_and fuel st with
      | (.error e, st₁) => (.error e, st₁)
      | (.ok expr, st₁) => orLoop fuel expr st₁

/-- The `while advance_if_match(OR)` loop of `parse_or`. -/
def orLoop : Nat → Expr → PSt → Except PExc Expr × PSt
  | 0, _, st => (.error .fuelOut, st)
  | fuel + 1, expr, st =>
      let (m, st₁) := st.advance_if_match [.OR]
      if m then
        match st₁.previous_token with
        | .error e => (.error e, st₁)
        | .ok operator =>
            match parse_and fuel st₁ with
            | (.error e, st₂) => (.error e, st₂)
            | (.ok right, st₂) => orLoop fuel (.logical expr operator right) st₂
      else (.ok expr, st₁)

/-- Method `Parser.parse_and`. -/
def parse_and : Nat → PSt → Except PExc Expr × PSt
  | 0, st => (.error .fuelOut, st)
  | fuel + 1, st =>
      match parse_equality fuel st with
      | (.error e, st₁) => (.error e, st₁)
      | (.ok expr, st₁) => andLoop fuel expr st₁

/-- The `while advance_if_match(AND)` loop of `parse_and`. -/
def andLoop : Nat → Expr → PSt → Except PExc Expr × PSt
  | 0, _, st => (.error .fuelOut, st)
  | fuel + 1, expr, st =>
      let (m, st₁) := st.advance_if_match [.AND]
      if m then
        match st₁.previous_token with
        | .error e => (.error e, st₁)
        | .ok operator =>
            match parse_equality fuel st₁ with
            | (.error e, st₂) => (.error e, st₂)
            | (.ok right, st₂) => andLoop fuel (.logical expr operator right) st₂
      else (.ok expr, st₁)

/-- Method `Parser.parse_equality`. -/
def parse_equality : Nat → PSt → Except PExc Expr × PSt
  | 0, st => (.error .fuelOut, st)
  | fuel + 1, st =>
      match parse_comparison fuel st with
      | (.error e, st₁) => (.error e, st₁)
      | (.ok expr, st₁) => eqLoop fuel expr st₁

/-- The operator loop of `parse_equality`. -/
def eqLoop : Nat → Expr → PSt → Except PExc Expr × PSt
  | 0, _, st => (.error .fuelOut, st)
  | fuel + 1, expr, st =>
      let (m, st₁) := st.advance_if_match [.BANG_EQUAL, .EQUAL_EQUAL]
      if m then
        match st₁.previous_token with
        | .error e => (.error e, st₁)
        | .ok operator =>
            match parse_comparison fuel st₁ with
            | (.error e, st₂) => (.error e, st₂)
            | (.ok right, st₂) => eqLoop fuel (.binary expr operator right) st₂
      else (.ok expr, st₁)

/-- Method `Parser.parse_comparison`. -/
def parse_comparison : Nat → PSt → Except PExc Expr × PSt
  | 0, st => (.error .fuelOut, st)
  | fuel + 1, st =>
      match parse_term fuel st with
      | (.error e, st₁) => (.error e, st₁)
      | (.ok expr, st₁) => compLoop fuel expr st₁

/-- The operator loop of `parse_comparison`. -/
def compLoop : Nat → Expr → PSt → Except PExc Expr × PSt
  | 0, _, st => (.error .fuelOut, st)
  | fuel + 1, expr, st =>
      let (m, st₁) := st.advance_if_match [.GREATER, .GREATER_EQUAL, .LESS, .LESS_EQUAL]
      if m then
        match st₁.previous_token with
        | .error e => (.error e, st₁)
        | .ok operator =>
            match parse_term fuel st₁ with
            | (.error e, st₂) => (.error e, st₂)
            | (.ok right, st₂) => compLoop fuel (.binary expr operator right) st₂
      else (.ok expr, st₁)

/-- Method `Parser.parse_term`. -/
def parse_term : Nat → PSt → Except PExc Expr × PSt
  | 0, st => (.error .fuelOut, st)
  | fuel + 1, st =>
      match parse_factor fuel st with
      | (.error e, st₁) => (.error e, st₁)
      | (.ok expr, st₁) => termLoop fuel expr st₁

/-- The operator loop of `parse_term`. -/
def termLoop : Nat → Expr → PSt → Except PExc Expr × PSt
  | 0, _, st => (.error .fuelOut, st)
  | fuel + 1, expr, st =>
      let (m, st₁) := st.advance_if_match [.MINUS, .PLUS]
      if m then
        match st₁.previous_token with
        | .error e => (.error e, st₁)
        | .ok operator =>
            match parse_factor fuel st₁ with
            | (.error e, st₂) => (.error e, st₂)
            | (.ok right, st₂) => termLoop fuel (.binary expr operator right) st₂
      else (.ok expr, st₁)

/-- Method `Parser.parse_factor`. -/
def parse_factor : Nat → PSt → Except PExc Expr × PSt
  | 0, st => (.error .fuelOut, st)
  | fuel + 1, st =>
      match parse_unary fuel st with
      | (.error e, st₁) => (.error e, st₁)
      | (.ok expr, st₁) => factorLoop fuel expr st₁

/-- The operator loop of `parse_factor`. -/
def factorLoop : Nat → Expr → PSt → Except PExc Expr × PSt
  | 0, _, st => (.error .fuelOut, st)
  | fuel + 1, expr, st =>
      let (m, st₁) := st.advance_if_match [.SLASH, .STAR]
      if m then
        match st₁.previous_token with
        | .error e => (.error e, st₁)
        | .ok operator =>
            match parse_unary fuel st₁ with
            | (.error e, st₂) => (.error e, st₂)
            | (.ok right, st₂) => factorLoop fuel (.binary expr operator right) st₂
      else (.ok expr, st₁)

/-- Method `Parser.parse_unary`. -/
def parse_unary : Nat → PSt → Except PExc Expr × PSt
  | 0, st => (.error .fuelOut, st)
  | fuel + 1, st =>
      let (m, st₁) := st.advance_if_match [.BANG, .MINUS]
      if m then
        match st₁.previous_token with
        | .error e => (.error e, st₁)
        | .ok operator =>
            match parse_unary fuel st₁ with
            | (.error e, st₂) => (.error e, st₂)
            | (.ok right, st₂) => (.ok (.unary operator right), st₂)
      else parse_call fuel st₁

/-- Method `Parser.parse_call`. -/
def parse_call : Nat → PSt → Except PExc Expr × PSt
  | 0, st => (.error .fuelOut, st)
  | fuel + 1, st =>
      match parse_primary fuel st with
      | (.error e, st₁) => (.error e, st₁)
      | (.ok expr, st₁) => callLoop fuel expr st₁

/-- The `while True` postfix loop of `parse_call`. -/
def callLoop : Nat → Expr → PSt → Except PExc Expr × PSt
  | 0, _, st => (.error .fuelOut, st)
  | fuel + 1, expr, st =>
      let (m, st₁) := st.advance_if_match [.LEFT_PAREN]
      if m then
        match finish_call fuel expr st₁ with
        | (.error e, st₂) => (.error e, st₂)
        | (.ok expr', st₂) => callLoop fuel expr' st₂
      else
        let (m, st₂) := st₁.advance_if_match [.DOT]
        if m then
          match st₂.consume .IDENTIFIER "Expect property name after '.'." with
          | (.error e, st₃) => (.error e, st₃)
          | (.ok name, st₃) => callLoop fuel (.get expr name) st₃
        else (.ok expr, st₂)

/-- Method `Parser.parse_primary`. -/
def parse_primary : Nat → PSt → Except PExc Expr × PSt
  | 0, st => (.error .fuelOut, st)
  | fuel + 1, st =>
      let (m, st₁) := st.advance_if_match [.FALSE]
      if m then (.ok (.literal (.bool false)), st₁)
      else
        let (m, st₂) := st₁.advance_if_match [.TRUE]
        if m then (.ok (.literal (.bool true)), st₂)
        else
          let (m, st₃) := st₂.advance_if_match [.NIL]
          if m then (.ok (.literal .nil), st₃)
          else
            let (m, st₄) := st₃.advance_if_match [.NUMBER, .STRING]
            if m then
              match st₄.previous_token with
              | .error e => (.error e, st₄)
              | .ok t =>
                  let v : LitVal :=
                    match t.literal with
                    | some (.num q) => .num q
                    | some (.str s) => .str s
                    | none => .nil
                  (.ok (.literal v), st₄)
            else
              let (m, st₅) := st₄.advance_if_match [.SUPER]
              if m then
                match st₅.previous_token with
                | .error e => (.error e, st₅)
                | .ok keyword =>
                    match st₅.consume .DOT "Expect '.' after 'super'." with
                    | (.error e, st₆) => (.error e, st₆)
                    | (.ok _, st₆) =>
                        match st₆.consume .IDENTIFIER "Expect superclass method name." with
                        | (.error e, st₇) => (.error e, st₇)
                        | (.ok method, st₇) =>
                            let (i, st₈) := st₇.freshId
                            (.ok (.superE i keyword method), st₈)
              else
                let (m, st₆) := st₅.advance_if_match [.THIS]
                if m then
                  match st₆.previous_token with
                  | .error e => (.error e, st₆)
                  | .ok keyword =>
                      let (i, st₇) := st₆.freshId
                      (.ok (.thisE i keyword), st₇)
                else
                  let (m, st₇) := st₆.advance_if_match [.IDENTIFIER]
                  if m then
                    match st₇.previous_token with
                    | .error e => (.error e, st₇)
                    | .ok name =>
                        let (i, st₈) := st₇.freshId
                        (.ok (.var i name), st₈)
                  else
                    let (m, st₈) := st₇.advance_if_match [.LEFT_PAREN]
                    if m then
                      match parse_expression fuel st₈ with
                      | (.error e, st₉) => (.error e, st₉)
                      | (.ok expr, st₉) =>
                          match st₉.consume .RIGHT_PAREN "Expect ')' after expression." with
                          | (.error e, stA) => (.error e, stA)
                          | (.ok _, stA) => (.ok (.grouping expr), stA)
                    else
                      let prevStr :=
                        if st₈.pos > 0 then
                          match st₈.previous_token with
                          | .ok t => tokenRepr t
                          | .error _ => "<Beginning>"
                        else "<Beginning>"
                      match st₈.current_token with
                      | .error e => (.error e, st₈)
                      | .ok cur =>
                          let e : PErr :=
                            ⟨"Expect expression after " ++ prevStr ++ " on " ++
                              cur.lexeme ++ ".", cur.line⟩
                          (.error (.parseError e), st₈.record e)

/-- Method `Parser.finish_call`. -/
def finish_call : Nat → Expr → PSt → Except PExc Expr × PSt
  | 0, _, st => (.error .fuelOut, st)
  | fuel + 1, callee, st =>
      match argLoop fuel st [] with
      | (.error e, st₁) => (.error e, st₁)
      | (.ok args, st₁) =>
          match st₁.consume .RIGHT_PAREN "Expect ')' after arguments." with
          | (.error e, st₂) => (.error e, st₂)
          | (.ok _, st₂) => (.ok (.call callee args), st₂)

/-- The argument loop of `finish_call`: at 255 or more already-collected
arguments the recorded error is raised, aborting the call parse. -/
def argLoop : Nat → PSt → List Expr → Except PExc (List Expr) × PSt
  | 0, st, _ => (.error .fuelOut, st)
  | fuel + 1, st, acc =>
      if !st.check_token_type .RIGHT_PAREN then
        if acc.length ≥ 255 then
          match st.current_token with
          | .ok t =>
              let e : PErr := ⟨"Cannot have more than 255 arguments.", t.line⟩
              (.error (.parseError e), st.record e)
          | .error ex => (.error ex, st)
        else
          match parse_expression fuel st with
          | (.error e, st₁) => (.error e, st₁)
          | (.ok expr, st₁) =>
              let (m, st₂) := st₁.advance_if_match [.COMMA]
              if m then argLoop fuel st₂ (acc ++ [expr])
              else (.ok (acc ++ [expr]), st₂)
      else (.ok acc, st)

end

/-- The parser state `Parser.from_source` builds: scanner output with
`COMMENT` tokens filtered out (`Tokens.from_source` with
`filter_comments=True`), empty error list.  The `.error` side is an
uncaught `PyloxScanError` from scanning. -/
def parserFromSource (s : String) : Except ScanExc PSt :=
  match scan_tokens s with
  | .error e => .error e
  | .ok ts => .ok ⟨ts.filter (fun t => t.token_type ≠ .COMMENT), 0, [], 0⟩

/-! ## Runtime values (`pylox/interpreter.py`) -/

/-- Runtime values: `None`, `bool`, `float`, `str`, and `LoxFunction`
(closure environment reference plus the fields of its `FunStmt`
declaration).  The `Clock` builtin of `pylox/lox_builtins.py` is not
modelled: the default `Interpreter()` global environment is empty and no
program considered below references `clock`. -/
inductive Value where
  | nil
  | bool (b : Bool)
  | num (q : Rat)
  | str (s : String)
  | fn (closure : Nat) (name : Token) (params : List Token) (body : Stmt)

/-- Python exceptions that can propagate out of interpreter methods. -/
inductive RtErr where
  | keyError (message : String)
  | typeError (message : String)
  | zeroDivisionError
  | valueError (message : String)
  | runtimeError (message : String)
  | pyloxRuntimeError (message : String) (line : Nat)
  | notImplementedError
  | recursionError
  deriving DecidableEq

/-- Non-normal outcome of executing a statement: a propagating Python
exception, the `PyloxReturn` control-flow signal, or fuel exhaustion (an
embedding artefact that never occurs in any theorem below). -/
inductive Signal where
  | exc (e : RtErr)
  | ret (v : Value)
  | fuelOut

/-- One line of the process's standard output: a `print`-statement line
(`visit_print_stmt` appends `as_str` to `test_console` and `rich.print`s
it), or the stray `print(stmt.initializer)` debug line in
`visit_for_stmt`, which writes the Python rendering of the initializer AST
node (kept symbolic here as the node itself). -/
inductive OutLine where
  | printed (s : String)
  | debugRepr (s : Stmt)

/-- An `Environment` object (`pylox/environment.py`): its `values` dict and
the optional heap reference of its `enclosing` environment. -/
structure EnvData where
  values : List (String × Value)
  enclosing : Option Nat

/-- Interpreter state: the heap of `Environment` objects (Python aliasing
is modelled by indices into it), `global_env` and `_env` as heap indices,
the produced standard output, and `_locals` (the `Distances.data` map from
expression identity to hop distance). -/
structure IState where
  heap : List EnvData
  global_env : Nat
  env : Nat
  output : List OutLine
  locals : List (Nat × Nat)

/-- Python dict lookup. -/
def dictGet (d : List (String × Value)) (k : String) : Option Value :=
  match d.find? (fun p => p.1 == k) with
  | some p => some p.2
  | none => none

/-- Python dict store (replace in place or append). -/
def dictSet : List (String × Value) → String → Value → List (String × Value)
  | [], k, v => [(k, v)]
  | (k', v') :: rest, k, v =>
      if k' == k then (k, v) :: rest else (k', v') :: dictSet rest k v

/-- Dereference a heap index.  Indices only ever come from allocation, so
the out-of-range default is unreachable. -/
def IState.envAt (σ : IState) (i : Nat) : EnvData :=
  (σ.heap.get? i).getD ⟨[], none⟩

/-- Overwrite the environment object at a heap index. -/
def IState.setEnv (σ : IState) (i : Nat) (d : EnvData) : IState :=
  { σ with heap := σ.heap.set i d }

/-- Allocate a fresh `Environment(enclosing)` and return its reference. -/
def IState.alloc (σ : IState) (enclosing : Option Nat) : Nat × IState :=
  (σ.heap.length, { σ with heap := σ.heap ++ [⟨[], enclosing⟩] })

/-- Method `Environment.define`. -/
def envDefine (σ : IState) (i : Nat) (name : String) (v : Value) : IState :=
  σ.setEnv i ⟨dictSet (σ.envAt i).values name v, (σ.envAt i).enclosing⟩

/-- Method `Environment.get`: try the own dict, else recurse into the
enclosing environment, else re-raise the `KeyError`.  The fuel models
Python's recursion limit; call sites pass more than the heap size, which
the parent-points-to-older-index allocation discipline makes sufficient. -/
def envGet (σ : IState) : Nat → Nat → String → Except RtErr Value
  | 0, _, _ => .error .recursionError
  | fuel + 1, i, name =>
      match dictGet (σ.envAt i).values name with
      | some v => .ok v
      | none =>
          match (σ.envAt i).enclosing with
          | some j => envGet σ fuel j name
          | none => .error (.keyError name)

/-- Method `Environment.assign`. -/
def envAssign (σ : IState) : Nat → Nat → String → Value → Except RtErr IState
  | 0, _, _, _ => .error .recursionError
  | fuel + 1, i, name, v =>
      if (dictGet (σ.envAt i).values name).isSome then
        .ok (envDefine σ i name v)
      else
        match (σ.envAt i).enclosing with
        | some j => envAssign σ fuel j name v
        | none => .error (.keyError ("Undefined variable " ++ name ++ "."))

/-- Method `Environment.ancestor`: walk `distance` enclosing links. -/
def envAncestor (σ : IState) : Nat → Nat → Except RtErr Nat
  | i, 0 => .ok i
  | i, d + 1 =>
      match (σ.envAt i).enclosing with
      | some j => envAncestor σ j d
      | none => .error (.valueError "No enclosing environment.")

/-- Method `Environment.get_at`: `ancestor(distance).values[name]`, whose
dict lookup raises `KeyError` when the name is absent there. -/
def envGetAt (σ : IState) (i d : Nat) (name : String) : Except RtErr Value :=
  match envAncestor σ i d with
  | .error e => .error e
  | .ok j =>
      match dictGet (σ.envAt j).values name with
      | some v => .ok v
      | none => .error (.keyError name)

/-- Method `Environment.assign_at`: a plain dict store at the ancestor (it
defines the name when absent). -/
def envAssignAt (σ : IState) (i d : Nat) (name : String) (v : Value) :
    Except RtErr IState :=
  match envAncestor σ i d with
  | .error e => .error e
  | .ok j => .ok (envDefine σ j name v)

/-- Lookup in the `Distances` map (`MutableMapping.get`: `None` when the
expression identity has no entry). -/
def localsGet (ls : List (Nat × Nat)) (eid : Nat) : Option Nat :=
  match ls.find? (fun p => p.1 == eid) with
  | some p => some p.2
  | none => none

/-- Store in the `Distances` map (`Interpreter.resolve`). -/
def localsSet : List (Nat × Nat) → Nat → Nat → List (Nat × Nat)
  | [], k, v => [(k, v)]
  | (k', v') :: rest, k, v =>
      if k' == k then (k, v) :: rest else (k', v') :: localsSet rest k v

/-- Method `Interpreter.is_truthy`: only `nil` and `False` are falsy. -/
def is_truthy : Value → Bool
  | .nil => false
  | .bool b => b
  | _ => true

/-- Method `Interpreter.as_str`.  Integer-valued numbers print via
`str(int(value))`; the remaining float branch is Python's float `repr`,
abstracted here as the rational rendering, and the callable branch is the
attrs `str` of the function object, abstracted as a tag — no theorem below
depends on either text. -/
def as_str : Value → String
  | .nil => "nil"
  | .bool b => if b then "true" else "false"
  | .num q => if q.den == 1 then toString q.num else toString q
  | .str s => s
  | .fn _ name _ _ => "LoxFunction(" ++ name.lexeme ++ ")"

/-- Token equality as Python's `==` computes it: `attrs` excludes the
`line` field (`eq=False` in `pylox/token.py`). -/
def tokenEqPy (a b : Token) : Bool :=
  a.token_type == b.token_type && a.lexeme == b.lexeme && a.literal == b.literal

mutual

/-- Structural equality of expression nodes as Python's `==` computes it
for `attrs` classes.  The embedding-only `eid` identity fields are
ignored, and tokens compare without their lines. -/
def exprBeq : Expr → Expr → Bool
  | .assign _ n v, .assign _ n' v' => tokenEqPy n n' && exprBeq v v'
  | .binary l o r, .binary l' o' r' => exprBeq l l' && tokenEqPy o o' && exprBeq r r'
  | .call c as, .call c' as' => exprBeq c c' && exprsBeq as as'
  | .get o n, .get o' n' => exprBeq o o' && tokenEqPy n n'
  | .grouping e, .grouping e' => exprBeq e e'
  | .literal v, .literal v' => v == v'
  | .logical l o r, .logical l' o' r' => exprBeq l l' && tokenEqPy o o' && exprBeq r r'
  | .setE o n v, .setE o' n' v' => exprBeq o o' && tokenEqPy n n' && exprBeq v v'
  | .superE _ k m, .superE _ k' m' => tokenEqPy k k' && tokenEqPy m m'
  | .thisE _ k, .thisE _ k' => tokenEqPy k k'
  | .unary o r, .unary o' r' => tokenEqPy o o' && exprBeq r r'
  | .var _ n, .var _ n' => tokenEqPy n n'
  | _, _ => false

/-- Elementwise `exprBeq` on lists. -/
def exprsBeq : List Expr → List Expr → Bool
  | [], [] => true
  | a :: as, b :: bs => exprBeq a b && exprsBeq as bs
  | _, _ => false

end

/-- `exprBeq` lifted to optional sub-nodes. -/
def optExprBeq : Option Expr → Option Expr → Bool
  | none, none => true
  | some a, some b => exprBeq a b
  | _, _ => false

/-- Elementwise token equality (parameter lists). -/
def toksEqPy : List Token → List Token → Bool
  | [], [] => true
  | a :: as, b :: bs => tokenEqPy a b && toksEqPy as bs
  | _, _ => false

mutual

/-- Structural equality of statement nodes as Python's `==` computes it
(see `exprBeq`). -/
def stmtBeq : Stmt → Stmt → Bool
  | .block ss, .block ss' => stmtsBeq ss ss'
  | .classS n s m, .classS n' s' m' =>
      tokenEqPy n n' && optExprBeq s s' && stmtsBeq m m'
  | .exprS e, .exprS e' => exprBeq e e'
  | .funS n p b, .funS n' p' b' => tokenEqPy n n' && toksEqPy p p' && stmtBeq b b'
  | .forS i c inc b, .forS i' c' inc' b' =>
      optStmtBeq i i' && optExprBeq c c' && optExprBeq inc inc' && stmtBeq b b'
  | .ifS c t e, .ifS c' t' e' => exprBeq c c' && stmtBeq t t' && optStmtBeq e e'
  | .print e, .print e' => exprBeq e e'
  | .ret k v, .ret k' v' => tokenEqPy k k' && optExprBeq v v'
  | .varS n i, .varS n' i' => tokenEqPy n n' && optExprBeq i i'
  | .whileS c b, .whileS c' b' => exprBeq c c' && stmtBeq b b'
  | _, _ => false

/-- Elementwise `stmtBeq` on lists. -/
def stmtsBeq : List Stmt → List Stmt → Bool
  | [], [] => true
  | a :: as, b :: bs => stmtBeq a b && stmtsBeq as bs
  | _, _ => false

/-- `stmtBeq` lifted to optional sub-nodes. -/
def optStmtBeq : Option Stmt → Option Stmt → Bool
  | none, none => true
  | some a, some b => stmtBeq a b
  | _, _ => false

end

/-- Python `==` on runtime values, as evaluated by the `BANG_EQUAL` /
`EQUAL_EQUAL` cases of `visit_binary_expr`.  `None` equals only `None`;
`bool` is a numeric type, so a boolean equals the floats `1.0` / `0.0`;
floats and strings compare by value; other mixed kinds are unequal.  Two
`LoxFunction` values compare by their `attrs` fields `(closure,
declaration)`: the declaration structurally, and the closure by heap
reference — an approximation of Python's structural `Environment`
comparison that no theorem below exercises. -/
def pyEq : Value → Value → Bool
  | .nil, .nil => true
  | .bool a, .bool b => a == b
  | .bool a, .num q => (if a then (1 : Rat) else 0) == q
  | .num q, .bool a => q == (if a then (1 : Rat) else 0)
  | .num a, .num b => a == b
  | .str a, .str b => a == b
  | .fn c n p b, .fn c' n' p' b' =>
      c == c' && tokenEqPy n n' && toksEqPy p p' && stmtBeq b b'
  | _, _ => false

/-! ## Arithmetic on numbers

Lox numbers are Python floats, modelled exactly as rationals.  The
operations below are ordinary rational arithmetic, written via
`Rat.divInt` so that concrete runs evaluate inside the kernel (the
library's `Rat.add` etc. are `@[irreducible]`). -/

/-- Rational addition (`left + right` on numbers). -/
def ratAdd (a b : Rat) : Rat := Rat.divInt (a.num * b.den + b.num * a.den) (a.den * b.den)

/-- Rational subtraction (`left - right` on numbers). -/
def ratSub (a b : Rat) : Rat := Rat.divInt (a.num * b.den - b.num * a.den) (a.den * b.den)

/-- Rational multiplication (`left * right` on numbers). -/
def ratMul (a b : Rat) : Rat := Rat.divInt (a.num * b.num) (a.den * b.den)

/-- Rational division (`left / right` on numbers, for a nonzero divisor). -/
def ratDiv (a b : Rat) : Rat := Rat.divInt (a.num * b.den) (a.den * b.num)

/-- Is the value a Python `float` (`isinstance(value, float)`)?  Python
booleans are `int`s, not `float`s, so they fail this check. -/
def isNum : Value → Bool
  | .num _ => true
  | _ => false

/-- Is the value a `float` or a `str` (the tuple check of the `PLUS` case)? -/
def isNumOrStr : Value → Bool
  | .num _ => true
  | .str _ => true
  | _ => false

/-- Method `Interpreter.ensure_types`: `TypeError` on the first value not of
the expected types.  Python's message interpolates `str(value)` and the
type tuple; the text is abbreviated here (no theorem depends on it). -/
def ensure_types (ok : Value → Bool) (vals : List Value) : Option RtErr :=
  match vals.find? (fun v => !ok v) with
  | some v => some (.typeError ("Invalid type: " ++ as_str v ++ "."))
  | none => none

/-- The operator dispatch of `Interpreter.visit_binary_expr`, after both
operands have been evaluated.  `SLASH` is Python float division: with a
zero divisor it raises `ZeroDivisionError` — there is no guard in the
source, this is the host semantics of `left / right`. -/
def binaryOp (op : TokenType) (left right : Value) : Except RtErr Value :=
  match op with
  | .PLUS =>
      match ensure_types isNumOrStr [left, right] with
      | some e => .error e
      | none =>
          match left, right with
          | .num a, .num b => .ok (.num (ratAdd a b))
          | .str a, .str b => .ok (.str (a ++ b))
          | _, _ => .error (.typeError "unsupported operand type(s) for +")
  | .MINUS =>
      match ensure_types isNum [left, right] with
      | some e => .error e
      | none =>
          match left, right with
          | .num a, .num b => .ok (.num (ratSub a b))
          | _, _ => .error (.typeError "unreachable")
  | .STAR =>
      match ensure_types isNum [left, right] with
      | some e => .error e
      | none =>
          match left, right with
          | .num a, .num b => .ok (.num (ratMul a b))
          | _, _ => .error (.typeError "unreachable")
  | .SLASH =>
      match ensure_types isNum [left, right] with
      | some e => .error e
      | none =>
          match left, right with
          | .num a, .num b =>
              if b = 0 then .error .zeroDivisionError else .ok (.num (ratDiv a b))
          | _, _ => .error (.typeError "unreachable")
  | .GREATER =>
      match ensure_types isNum [left, right] with
      | some e => .error e
      | none =>
          match left, right with
          | .num a, .num b => .ok (.bool (Rat.blt b a))
          | _, _ => .error (.typeError "unreachable")
  | .GREATER_EQUAL =>
      match ensure_types isNum [left, right] with
      | some e => .error e
      | none =>
          match left, right with
          | .num a, .num b => .ok (.bool (!Rat.blt a b))
          | _, _ => .error (.typeError "unreachable")
  | .LESS =>
      match ensure_types isNum [left, right] with
      | some e => .error e
      | none =>
          match left, right with
          | .num a, .num b => .ok (.bool (Rat.blt a b))
          | _, _ => .error (.typeError "unreachable")
  | .LESS_EQUAL =>
      match ensure_types isNum [left, right] with
      | some e => .error e
      | none =>
          match left, right with
          | .num a, .num b => .ok (.bool (!Rat.blt b a))
          | _, _ => .error (.typeError "unreachable")
  | .BANG_EQUAL => .ok (.bool (!pyEq left right))
  | .EQUAL_EQUAL => .ok (.bool (pyEq left right))
  | _ => .error .notImplementedError

/-- The operator dispatch of `Interpreter.visit_unary_expr` after the
operand has been evaluated. -/
def unaryOp (op : TokenType) (right : Value) : Except RtErr Value :=
  match op with
  | .MINUS =>
      match ensure_types isNum [right] with
      | some e => .error e
      | none =>
          match right with
          | .num a => .ok (.num (Rat.neg a))
          | _ => .error (.typeError "unreachable")
  | .BANG => .ok (.bool (!is_truthy right))
  | _ => .error .notImplementedError

/-- The value a `LiteralExpr` evaluates to (`visit_literal_expr`). -/
def litToVal : LitVal → Value
  | .nil => .nil
  | .bool b => .bool b
  | .num q => .num q
  | .str s => .str s

/-- Bind parameters to arguments in a call environment
(`for param, arg in zip(...): env.define(...)`). -/
def defineParams (σ : IState) (i : Nat) : List Token → List Value → IState
  | p :: ps, v :: vs => defineParams (envDefine σ i p.lexeme v) i ps vs
  | _, _ => σ

mutual

/-- Expression evaluation (`Interpreter.evaluate` dispatching to the
`visit_*_expr` methods).  The result is the value or a propagating signal,
together with the updated interpreter state. -/
def evalExpr : Nat → Expr → IState → Except Signal Value × IState
  | 0, _, σ => (.error .fuelOut, σ)
  | fuel + 1, e, σ =>
      match e with
      | .assign eid name value =>
          -- visit_assign_expr: evaluate, then assign at the resolved
          -- distance or through the globals, returning the value.
          match evalExpr fuel value σ with
          | (.error s, σ₁) => (.error s, σ₁)
          | (.ok v, σ₁) =>
              match localsGet σ₁.locals eid with
              | some d =>
                  match envAssignAt σ₁ σ₁.env d name.lexeme v with
                  | .ok σ₂ => (.ok v, σ₂)
                  | .error er => (.error (.exc er), σ₁)
              | none =>
                  match envAssign σ₁ (σ₁.heap.length + 1) σ₁.global_env name.lexeme v with
                  | .ok σ₂ => (.ok v, σ₂)
                  | .error er => (.error (.exc er), σ₁)
      | .binary l op r =>
          -- visit_binary_expr: left, then right, then the operator table.
          match evalExpr fuel l σ with
          | (.error s, σ₁) => (.error s, σ₁)
          | (.ok lv, σ₁) =>
              match evalExpr fuel r σ₁ with
              | (.error s, σ₂) => (.error s, σ₂)
              | (.ok rv, σ₂) =>
                  match binaryOp op.token_type lv rv with
                  | .ok v => (.ok v, σ₂)
                  | .error er => (.error (.exc er), σ₂)
      | .call callee args =>
          -- visit_call_expr: callable check, arity check against the
          -- argument expressions, left-to-right evaluation, then the call.
          match evalExpr fuel callee σ with
          | (.error s, σ₁) => (.error s, σ₁)
          | (.ok f, σ₁) =>
              match f with
              | .fn clos name params body =>
                  if params.length ≠ args.length then
                    (.error (.exc (.runtimeError
                      ("Expected " ++ toString params.length ++ " arguments but got "
                        ++ toString args.length ++ "."))), σ₁)
                  else
                    match evalArgs fuel args σ₁ with
                    | (.error s, σ₂) => (.error s, σ₂)
                    | (.ok vs, σ₂) => callFunction fuel clos name params body vs σ₂
              | _ => (.error (.exc (.runtimeError "is not callable.")), σ₁)
      | .get _ _ => (.error (.exc .notImplementedError), σ)
      | .grouping inner => evalExpr fuel inner σ
      | .literal v => (.ok (litToVal v), σ)
      | .logical l op r =>
          -- visit_logical_expr: short circuit, returning the deciding
          -- operand uncoerced.
          match evalExpr fuel l σ with
          | (.error s, σ₁) => (.error s, σ₁)
          | (.ok lv, σ₁) =>
              if op.token_type == .OR then
                if is_truthy lv then (.ok lv, σ₁) else evalExpr fuel r σ₁
              else
                if !is_truthy lv then (.ok lv, σ₁) else evalExpr fuel r σ₁
      | .setE _ _ _ => (.error (.exc .notImplementedError), σ)
      | .superE _ _ _ => (.error (.exc .notImplementedError), σ)
      | .thisE _ _ => (.error (.exc .notImplementedError), σ)
      | .unary op r =>
          match evalExpr fuel r σ with
          | (.error s, σ₁) => (.error s, σ₁)
          | (.ok rv, σ₁) =>
              match unaryOp op.token_type rv with
              | .ok v => (.ok v, σ₁)
              | .error er => (.error (.exc er), σ₁)
      | .var eid name =>
          -- visit_var_expr → lookup_variable: resolved distance from the
          -- current environment, or the globals.
          match localsGet σ.locals eid with
          | some d =>
              match envGetAt σ σ.env d name.lexeme with
              | .ok v => (.ok v, σ)
              | .error er => (.error (.exc er), σ)
          | none =>
              match envGet σ (σ.heap.length + 1) σ.global_env name.lexeme with
              | .ok v => (.ok v, σ)
              | .error er => (.error (.exc er), σ)

/-- Left-to-right evaluation of call arguments
(`[self.evaluate(arg) for arg in expr.args]`). -/
def evalArgs : Nat → List Expr → IState → Except Signal (List Value) × IState
  | 0, _, σ => (.error .fuelOut, σ)
  | _, [], σ => (.ok [], σ)
  | fuel + 1, a :: as, σ =>
      match evalExpr fuel a σ with
      | (.error s, σ₁) => (.error s, σ₁)
      | (.ok v, σ₁) =>
          match evalArgs fuel as σ₁ with
          | (.error s, σ₂) => (.error s, σ₂)
          | (.ok vs, σ₂) => (.ok (v :: vs), σ₂)

/-- Method `LoxFunction.__call__`: fresh environment over the closure,
arity recheck (raising `PyloxRuntimeError`; unreachable after
`visit_call_expr`'s own check), parameter binding, body execution under
`env_scope`, catching `PyloxReturn`.  A normal completion yields `nil`;
the `env_scope` `finally` restores the caller's environment on every
path. -/
def callFunction : Nat → Nat → Token → List Token → Stmt → List Value → IState →
    Except Signal Value × IState
  | 0, _, _, _, _, _, σ => (.error .fuelOut, σ)
  | fuel + 1, clos, name, params, body, args, σ =>
      let (idx, σ₁) := σ.alloc (some clos)
      if args.length ≠ params.length then
        (.error (.exc (.pyloxRuntimeError
          ("Expected " ++ toString params.length ++ " arguments but got "
            ++ toString args.length ++ ".") name.line)), σ₁)
      else
        let σ₂ := defineParams σ₁ idx params args
        let σ₃ := { σ₂ with env := idx }
        match execStmt fuel body σ₃ with
        | (none, σ₄) => (.ok .nil, { σ₄ with env := σ.env })
        | (some (.ret v), σ₄) => (.ok v, { σ₄ with env := σ.env })
        | (some (.exc er), σ₄) => (.error (.exc er), { σ₄ with env := σ.env })
        | (some .fuelOut, σ₄) => (.error .fuelOut, { σ₄ with env := σ.env })

/-- Statement execution (`Interpreter.execute` dispatching to the
`visit_*_stmt` methods); `none` is normal completion. -/
def execStmt : Nat → Stmt → IState → Option Signal × IState
  | 0, _, σ => (some .fuelOut, σ)
  | fuel + 1, s, σ =>
      match s with
      | .block ss =>
          -- visit_block_stmt: run the statements in a fresh child
          -- environment under env_scope, whose finally restores _env.
          let (idx, σ₁) := σ.alloc (some σ.env)
          let σ₂ := { σ₁ with env := idx }
          let (r, σ₃) := execStmts fuel ss σ₂
          (r, { σ₃ with env := σ.env })
      | .classS _ _ _ => (some (.exc .notImplementedError), σ)
      | .exprS e =>
          match evalExpr fuel e σ with
          | (.ok _, σ₁) => (none, σ₁)
          | (.error s, σ₁) => (some s, σ₁)
      | .funS name params body =>
          -- visit_fun_stmt: a LoxFunction closing over the current env.
          (none, envDefine σ σ.env name.lexeme (.fn σ.env name params body))
      | .forS ini c inc b =>
          -- visit_for_stmt: fresh environment for the whole loop; the
          -- stray debug print of the initializer node, then the
          -- initializer, then the condition/body/increment loop.
          let (idx, σ₁) := σ.alloc (some σ.env)
          let σ₂ := { σ₁ with env := idx }
          let (r, σ₃) :=
            match ini with
            | some i =>
                let σd := { σ₂ with output := σ₂.output ++ [OutLine.debugRepr i] }
                match execStmt fuel i σd with
                | (some sg, σ₄) => (some sg, σ₄)
                | (none, σ₄) => forLoop fuel c inc b σ₄
            | none => forLoop fuel c inc b σ₂
          (r, { σ₃ with env := σ.env })
      | .ifS c t e =>
          match evalExpr fuel c σ with
          | (.error s, σ₁) => (some s, σ₁)
          | (.ok cv, σ₁) =>
              if is_truthy cv then execStmt fuel t σ₁
              else
                match e with
                | some es => execStmt fuel es σ₁
                | none => (none, σ₁)
      | .print e =>
          match evalExpr fuel e σ with
          | (.error s, σ₁) => (some s, σ₁)
          | (.ok v, σ₁) => (none, { σ₁ with output := σ₁.output ++ [.printed (as_str v)] })
      | .ret _ value =>
          -- visit_return_stmt: raise PyloxReturn with the value (or nil).
          match value with
          | some e =>
              match evalExpr fuel e σ with
              | (.error s, σ₁) => (some s, σ₁)
              | (.ok v, σ₁) => (some (.ret v), σ₁)
          | none => (some (.ret .nil), σ)
      | .varS name ini =>
          match ini with
          | some e =>
              match evalExpr fuel e σ with
              | (.error s, σ₁) => (some s, σ₁)
              | (.ok v, σ₁) => (none, envDefine σ₁ σ₁.env name.lexeme v)
          | none => (none, envDefine σ σ.env name.lexeme .nil)
      | .whileS c b => whileLoop fuel c b σ

/-- Sequential execution of a statement list; the first signal stops the
remaining statements (the Python exception propagates). -/
def execStmts : Nat → List Stmt → IState → Option Signal × IState
  | 0, _, σ => (some .fuelOut, σ)
  | _, [], σ => (none, σ)
  | fuel + 1, s :: ss, σ =>
      match execStmt fuel s σ with
      | (some sg, σ₁) => (some sg, σ₁)
      | (none, σ₁) => execStmts fuel ss σ₁

/-- The condition check at the top of the `visit_for_stmt` loop: evaluate
the condition if present and report its truthiness (an absent condition
counts as true and the loop never breaks). -/
def forCond : Nat → Option Expr → IState → Except Signal Bool × IState
  | 0, _, σ => (.error .fuelOut, σ)
  | fuel + 1, c, σ =>
      match c with
      | some ce =>
          match evalExpr fuel ce σ with
          | (.ok v, σ₁) => (.ok (is_truthy v), σ₁)
          | (.error s, σ₁) => (.error s, σ₁)
      | none => (.ok true, σ)

/-- The `while True` loop of `visit_for_stmt`: optional condition with
truthiness exit, body, optional increment. -/
def forLoop : Nat → Option Expr → Option Expr → Stmt → IState → Option Signal × IState
  | 0, _, _, _, σ => (some .fuelOut, σ)
  | fuel + 1, c, inc, b, σ =>
      match forCond fuel c σ with
      | (.error s, σ₁) => (some s, σ₁)
      | (.ok false, σ₁) => (none, σ₁)
      | (.ok true, σ₁) =>
          match execStmt fuel b σ₁ with
          | (some sg, σ₂) => (some sg, σ₂)
          | (none, σ₂) =>
              match inc with
              | some ie =>
                  match evalExpr fuel ie σ₂ with
                  | (.error s, σ₃) => (some s, σ₃)
                  | (.ok _, σ₃) => forLoop fuel c inc b σ₃
              | none => forLoop fuel c inc b σ₂

/-- The loop of `visit_while_stmt`. -/
def whileLoop : Nat → Expr → Stmt → IState → Option Signal × IState
  | 0, _, _, σ => (some .fuelOut, σ)
  | fuel + 1, c, b, σ =>
      match evalExpr fuel c σ with
      | (.error s, σ₁) => (some s, σ₁)
      | (.ok cv, σ₁) =>
          if !is_truthy cv then (none, σ₁)
          else
            match execStmt fuel b σ₁ with
            | (some sg, σ₂) => (some sg, σ₂)
            | (none, σ₂) => whileLoop fuel c b σ₂

end

/-- Initial interpreter state: a default `Interpreter()` whose global
environment is a fresh empty `Environment()` with `_env = global_env`,
given the resolution map the resolver produced. -/
def initState (locals : List (Nat × Nat)) : IState :=
  { heap := [⟨[], none⟩], global_env := 0, env := 0, output := [], locals := locals }

/-- Method `Interpreter.interpret` over a program: execute the top-level
statements in order; a propagating exception stops the run. -/
def interpret (fuel : Nat) (locals : List (Nat × Nat)) (prog : List Stmt) :
    Option Signal × IState :=
  execStmts fuel prog (initState locals)

/-! ## Resolver (`pylox/resolver.py`) -/

/-- A recorded `PyloxResolverError`. -/
structure RErr where
  message : String
  line : Nat
  deriving DecidableEq

/-- Outcome tag for resolver visitors: a raised `PyloxResolverError`, or
the fuel artefact of the embedding (the resolver is structurally recursive
in Python; fuel never runs out in any theorem below). -/
inductive RExc where
  | resolverError (e : RErr)
  | fuelOut
  deriving DecidableEq

/-- Resolver state: the `Scopes` stack (innermost scope first, i.e. the
head is Python's `scopes[-1]`), the shared error list, the interpreter's
resolution map being populated (`Interpreter.resolve`), and the
`_current_function` / `_current_class` trackers. -/
structure RSt where
  scopes : List (List (String × Bool))
  errors : List RErr
  locals : List (Nat × Nat)
  current_function : FunctionType
  current_class : ClassType
  deriving DecidableEq

/-- Lookup in one scope dict. -/
def scopeGet (sc : List (String × Bool)) (k : String) : Option Bool :=
  match sc.find? (fun p => p.1 == k) with
  | some p => some p.2
  | none => none

/-- Store in one scope dict. -/
def scopeSet : List (String × Bool) → String → Bool → List (String × Bool)
  | [], k, v => [(k, v)]
  | (k', v') :: rest, k, v =>
      if k' == k then (k, v) :: rest else (k', v') :: scopeSet rest k v

/-- Method `Scopes.begin_scope`. -/
def RSt.begin_scope (st : RSt) : RSt := { st with scopes := [] :: st.scopes }

/-- Method `Scopes.end_scope`. -/
def RSt.end_scope (st : RSt) : RSt := { st with scopes := st.scopes.tail }

/-- Method `Scopes.declare`: no-op at global scope; in a scope already
holding the name, record and raise a `PyloxResolverError`; otherwise mark
the name declared-but-uninitialised. -/
def RSt.declare (st : RSt) (t : Token) : Option RErr × RSt :=
  match st.scopes with
  | [] => (none, st)
  | s :: rest =>
      if (scopeGet s t.lexeme).isSome then
        let e : RErr :=
          ⟨"Variable with name: " ++ t.lexeme ++ " already exists in scope", t.line⟩
        (some e, { st with errors := st.errors ++ [e] })
      else (none, { st with scopes := scopeSet s t.lexeme false :: rest })

/-- Method `Scopes.define`. -/
def RSt.define (st : RSt) (t : Token) : RSt :=
  match st.scopes with
  | [] => st
  | s :: rest => { st with scopes := scopeSet s t.lexeme true :: rest }

/-- Method `Scopes.is_defined_in_current_scope`. -/
def RSt.is_defined_in_current_scope (st : RSt) (t : Token) : Bool :=
  match st.scopes with
  | [] => false
  | s :: _ => (scopeGet s t.lexeme).isSome

/-- Method `Scopes.is_initialized_in_current_scope`. -/
def RSt.is_initialized_in_current_scope (st : RSt) (t : Token) : Bool :=
  match st.scopes with
  | [] => false
  | s :: _ => (scopeGet s t.lexeme).getD false

/-- Method `Scopes.get_distance`: index of the innermost scope holding the
name; `none` models the `ValueError` when it is nowhere. -/
def getDistanceAux : List (List (String × Bool)) → String → Nat → Option Nat
  | [], _, _ => none
  | s :: rest, k, i =>
      if (scopeGet s k).isSome then some i else getDistanceAux rest k (i + 1)

/-- Method `Resolver.resolve_local`: record the distance against the
expression identity in the interpreter's map, suppressing the
`ValueError` of an unresolvable (global) name. -/
def RSt.resolve_local (st : RSt) (eid : Nat) (t : Token) : RSt :=
  match getDistanceAux st.scopes t.lexeme 0 with
  | some d => { st with locals := localsSet st.locals eid d }
  | none => st

mutual

/-- Statement resolution (`Resolver` visitor); a returned error is the
raised `PyloxResolverError` propagating (the resolver has no handler, so
scope pops and tracker restores after the raise point do not happen). -/
def resolveStmt : Nat → Stmt → RSt → Option RExc × RSt
  | 0, _, st => (some .fuelOut, st)
  | fuel + 1, s, st =>
      match s with
      | .block ss =>
          match resolveStmts fuel ss st.begin_scope with
          | (some e, st₁) => (some e, st₁)
          | (none, st₁) => (none, st₁.end_scope)
      | .classS _ _ _ => (none, st)
      | .exprS e => resolveExpr fuel e st
      | .funS name params body =>
          -- visit_fun_stmt: declare + define the name, then the body.
          match st.declare name with
          | (some e, st₁) => (some (.resolverError e), st₁)
          | (none, st₁) => resolveFunction fuel params body .FUNCTION (st₁.define name)
      | .forS ini c inc b =>
          -- visit_for_stmt: resolve the pieces in order, with NO scope.
          let step1 : Option RExc × RSt :=
            match ini with
            | some i => resolveStmt fuel i st
            | none => (none, st)
          match step1 with
          | (some e, st₁) => (some e, st₁)
          | (none, st₁) =>
              let step2 : Option RExc × RSt :=
                match c with
                | some ce => resolveExpr fuel ce st₁
                | none => (none, st₁)
              match step2 with
              | (some e, st₂) => (some e, st₂)
              | (none, st₂) =>
                  let step3 : Option RExc × RSt :=
                    match inc with
                    | some ie => resolveExpr fuel ie st₂
                    | none => (none, st₂)
                  match step3 with
                  | (some e, st₃) => (some e, st₃)
                  | (none, st₃) => resolveStmt fuel b st₃
      | .ifS c t e =>
          match resolveExpr fuel c st with
          | (some er, st₁) => (some er, st₁)
          | (none, st₁) =>
              match resolveStmt fuel t st₁ with
              | (some er, st₂) => (some er, st₂)
              | (none, st₂) =>
                  match e with
                  | some es => resolveStmt fuel es st₂
                  | none => (none, st₂)
      | .print e => resolveExpr fuel e st
      | .ret keyword value =>
          -- visit_return_stmt: top-level and initializer checks.
          if st.current_function == .NONE then
            let e : RErr := ⟨"Cannot return from top-level code", keyword.line⟩
            (some (.resolverError e), { st with errors := st.errors ++ [e] })
          else
            match value with
            | some v =>
                if st.current_function == .INITIALIZER then
                  let e : RErr :=
                    ⟨"Cannot return a value from an initializer", keyword.line⟩
                  (some (.resolverError e), { st with errors := st.errors ++ [e] })
                else resolveExpr fuel v st
            | none => (none, st)
      | .varS name ini =>
          -- visit_var_stmt: declare, resolve the initializer, define.
          match st.declare name with
          | (some e, st₁) => (some (.resolverError e), st₁)
          | (none, st₁) =>
              match ini with
              | some ie =>
                  match resolveExpr fuel ie st₁ with
                  | (some e, st₂) => (some e, st₂)
                  | (none, st₂) => (none, st₂.define name)
              | none => (none, st₁.define name)
      | .whileS c b =>
          match resolveExpr fuel c st with
          | (some e, st₁) => (some e, st₁)
          | (none, st₁) => resolveStmt fuel b st₁

/-- Sequential resolution of a statement list (`Resolver.resolve`). -/
def resolveStmts : Nat → List Stmt → RSt → Option RExc × RSt
  | 0, _, st => (some .fuelOut, st)
  | _, [], st => (none, st)
  | fuel + 1, s :: ss, st =>
      match resolveStmt fuel s st with
      | (some e, st₁) => (some e, st₁)
      | (none, st₁) => resolveStmts fuel ss st₁

/-- Method `Resolver.resolve_function`: push the parameter scope, declare
and define each parameter, resolve the body, pop, restoring
`_current_function` (only on the non-raising path, as in the source). -/
def resolveFunction : Nat → List Token → Stmt → FunctionType → RSt → Option RExc × RSt
  | 0, _, _, _, st => (some .fuelOut, st)
  | fuel + 1, params, body, function_type, st =>
      let enclosing := st.current_function
      let st₁ := { st.begin_scope with current_function := function_type }
      match declareParams params st₁ with
      | (some e, st₂) => (some e, st₂)
      | (none, st₂) =>
          match resolveStmt fuel body st₂ with
          | (some e, st₃) => (some e, st₃)
          | (none, st₃) => (none, { st₃.end_scope with current_function := enclosing })

/-- The parameter declare/define loop of `resolve_function`. -/
def declareParams : List Token → RSt → Option RExc × RSt
  | [], st => (none, st)
  | p :: ps, st =>
      match st.declare p with
      | (some e, st₁) => (some (.resolverError e), st₁)
      | (none, st₁) => declareParams ps (st₁.define p)

/-- Expression resolution (`Resolver` visitor). -/
def resolveExpr : Nat → Expr → RSt → Option RExc × RSt
  | 0, _, st => (some .fuelOut, st)
  | fuel + 1, e, st =>
      match e with
      | .assign eid name value =>
          match resolveExpr fuel value st with
          | (some er, st₁) => (some er, st₁)
          | (none, st₁) => (none, st₁.resolve_local eid name)
      | .binary l _ r =>
          match resolveExpr fuel l st with
          | (some er, st₁) => (some er, st₁)
          | (none, st₁) => resolveExpr fuel r st₁
      | .call callee args =>
          match resolveExpr fuel callee st with
          | (some er, st₁) => (some er, st₁)
          | (none, st₁) => resolveExprs fuel args st₁
      | .get obj _ => resolveExpr fuel obj st
      | .grouping inner => resolveExpr fuel inner st
      | .literal _ => (none, st)
      | .logical l _ r =>
          match resolveExpr fuel l st with
          | (some er, st₁) => (some er, st₁)
          | (none, st₁) => resolveExpr fuel r st₁
      | .setE obj _ value =>
          -- visit_set_expr resolves the value first, then the object.
          match resolveExpr fuel value st with
          | (some er, st₁) => (some er, st₁)
          | (none, st₁) => resolveExpr fuel obj st₁
      | .superE eid keyword _ =>
          if st.current_class == .NONE then
            let er : RErr := ⟨"Cannot use 'super' outside of a class", keyword.line⟩
            (some (.resolverError er), { st with errors := st.errors ++ [er] })
          else if st.current_class != .SUBCLASS then
            let er : RErr :=
              ⟨"Cannot use 'super' in a class with no superclass", keyword.line⟩
            (some (.resolverError er), { st with errors := st.errors ++ [er] })
          else (none, st.resolve_local eid keyword)
      | .thisE eid keyword =>
          if st.current_class == .NONE then
            let er : RErr := ⟨"Cannot use 'this' outside of a class", keyword.line⟩
            (some (.resolverError er), { st with errors := st.errors ++ [er] })
          else (none, st.resolve_local eid keyword)
      | .unary _ r => resolveExpr fuel r st
      | .var eid name =>
          -- visit_var_expr: the self-initialiser check, then resolve_local.
          if st.scopes ≠ [] && st.is_defined_in_current_scope name
              && !st.is_initialized_in_current_scope name then
            let er : RErr :=
              ⟨"Cannot read local variable in its own initializer", name.line⟩
            (some (.resolverError er), { st with errors := st.errors ++ [er] })
          else (none, st.resolve_local eid name)

/-- Sequential resolution of an expression list. -/
def resolveExprs : Nat → List Expr → RSt → Option RExc × RSt
  | 0, _, st => (some .fuelOut, st)
  | _, [], st => (none, st)
  | fuel + 1, e :: es, st =>
      match resolveExpr fuel e st with
      | (some er, st₁) => (some er, st₁)
      | (none, st₁) => resolveExprs fuel es st₁

end

/-- Run the resolver over a program from a fresh `Resolver` state
(`Resolver.resolve(*statements)`); a `some` error is the propagating
`PyloxResolverError` that aborts resolution. -/
def resolveProgram (fuel : Nat) (prog : List Stmt) : Option RExc × RSt :=
  resolveStmts fuel prog ⟨[], [], [], .NONE, .NONE⟩

/-! ## Concrete programs and helper data for the theorems -/

/-- Decidable equality for `Except` results (used to evaluate concrete
pipeline runs by `decide`). -/
instance {ε α : Type} [DecidableEq ε] [DecidableEq α] : DecidableEq (Except ε α) :=
  fun x y =>
    match x, y with
    | .ok a, .ok b =>
        if h : a = b then .isTrue (by rw [h])
        else .isFalse (fun he => by cases he; exact h rfl)
    | .error a, .error b =>
        if h : a = b then .isTrue (by rw [h])
        else .isFalse (fun he => by cases he; exact h rfl)
    | .ok _, .error _ => .isFalse (fun he => by cases he)
    | .error _, .ok _ => .isFalse (fun he => by cases he)

/-- The `IDENTIFIER i` token of the for-loop program. -/
def iTok : Token := ⟨.IDENTIFIER, "i", none, 1⟩

/-- A `<` token. -/
def lessTok : Token := ⟨.LESS, "<", none, 1⟩

/-- A `+` token. -/
def plusTok : Token := ⟨.PLUS, "+", none, 1⟩

/-- A `/` token. -/
def slashTok : Token := ⟨.SLASH, "/", none, 1⟩

/-- An `==` token. -/
def eqeqTok : Token := ⟨.EQUAL_EQUAL, "==", none, 1⟩

/-- A `!=` token. -/
def bangeqTok : Token := ⟨.BANG_EQUAL, "!=", none, 1⟩

/-- The counting for-loop of the repository's own interpreter test table
(`tests/interpreter/interpreter_test_params.py`, id `for: i=0, i<3,
i=i+1`, expected output `0`, `1`, `2`) and of the specification's
end-to-end scenario 6. -/
def forSrc : String := "for (var i = 0; i < 3; i = i + 1) \x7b print i; \x7d"

/-- The token stream the scanner produces for `forSrc`. -/
def forToks : List Token :=
  [⟨.FOR, "for", none, 1⟩, ⟨.LEFT_PAREN, "(", none, 1⟩, ⟨.VAR, "var", none, 1⟩,
   iTok, ⟨.EQUAL, "=", none, 1⟩, ⟨.NUMBER, "0", some (.num 0), 1⟩,
   ⟨.SEMICOLON, ";", none, 1⟩, iTok, lessTok, ⟨.NUMBER, "3", some (.num 3), 1⟩,
   ⟨.SEMICOLON, ";", none, 1⟩, iTok, ⟨.EQUAL, "=", none, 1⟩, iTok, plusTok,
   ⟨.NUMBER, "1", some (.num 1), 1⟩, ⟨.RIGHT_PAREN, ")", none, 1⟩,
   ⟨.LEFT_BRACE, "\x7b", none, 1⟩, ⟨.PRINT, "print", none, 1⟩, iTok,
   ⟨.SEMICOLON, ";", none, 1⟩, ⟨.RIGHT_BRACE, "\x7d", none, 1⟩, ⟨.EOF, "", none, 1⟩]

/-- The statement list the parser produces for `forSrc` (node identities as
allocated by the parser's counter). -/
def forProg : List Stmt :=
  [.forS (some (.varS iTok (some (.literal (.num 0)))))
         (some (.binary (.var 0 iTok) lessTok (.literal (.num 3))))
         (some (.assign 3 iTok (.binary (.var 2 iTok) plusTok (.literal (.num 1)))))
         (.block [.print (.var 4 iTok)])]

/-- The `IDENTIFIER a` token of the self-initialising declaration. -/
def aTok : Token := ⟨.IDENTIFIER, "a", none, 1⟩

/-- The top-level self-initialising declaration of spec §8. -/
def varASrc : String := "var a = a;"

/-- Scanner output for `varASrc`. -/
def varAToks : List Token :=
  [⟨.VAR, "var", none, 1⟩, aTok, ⟨.EQUAL, "=", none, 1⟩, aTok,
   ⟨.SEMICOLON, ";", none, 1⟩, ⟨.EOF, "", none, 1⟩]

/-- Parser output for `varASrc`. -/
def varAProg : List Stmt := [.varS aTok (some (.var 0 aTok))]

/-- Scenario 8 of spec §8: `print 1/0 == 1/0;`. -/
def divSrc : String := "print 1/0 == 1/0;"

/-- Scanner output for `divSrc`. -/
def divToks : List Token :=
  [⟨.PRINT, "print", none, 1⟩, ⟨.NUMBER, "1", some (.num 1), 1⟩, slashTok,
   ⟨.NUMBER, "0", some (.num 0), 1⟩, eqeqTok, ⟨.NUMBER, "1", some (.num 1), 1⟩,
   slashTok, ⟨.NUMBER, "0", some (.num 0), 1⟩, ⟨.SEMICOLON, ";", none, 1⟩,
   ⟨.EOF, "", none, 1⟩]

/-- Parser output for `divSrc`. -/
def divProg : List Stmt :=
  [.print (.binary (.binary (.literal (.num 1)) slashTok (.literal (.num 0)))
            eqeqTok
            (.binary (.literal (.num 1)) slashTok (.literal (.num 0))))]

/-- A source with two declarations that are both parse errors (`var`
without a name, twice). -/
def twoErrSrc : String := "var; var;"

/-- Scanner output for `twoErrSrc`. -/
def twoErrToks : List Token :=
  [⟨.VAR, "var", none, 1⟩, ⟨.SEMICOLON, ";", none, 1⟩,
   ⟨.VAR, "var", none, 1⟩, ⟨.SEMICOLON, ";", none, 1⟩, ⟨.EOF, "", none, 1⟩]

/-- The `n + 1` copies of a token separated by a separator token (used to
build parameter and argument streams around the 255 limit). -/
def sepList (t sep : Token) : Nat → List Token
  | 0 => [t]
  | n + 1 => t :: sep :: sepList t sep n

/-- An `IDENTIFIER p` token (parameter name). -/
def pTok : Token := ⟨.IDENTIFIER, "p", none, 1⟩

/-- An `IDENTIFIER f` token (function name). -/
def fTok : Token := ⟨.IDENTIFIER, "f", none, 1⟩

/-- A `NUMBER 1` token (call argument). -/
def numTok : Token := ⟨.NUMBER, "1", some (.num 1), 1⟩

/-- A `,` token. -/
def commaTok : Token := ⟨.COMMA, ",", none, 1⟩

/-- Token stream for `f(` followed by 256 comma-separated parameters,
`) \x7b \x7d`, as `parse_function` sees it after `fun` was consumed. -/
def funToks256 : List Token :=
  [fTok, ⟨.LEFT_PAREN, "(", none, 1⟩] ++ sepList pTok commaTok 255 ++
    [⟨.RIGHT_PAREN, ")", none, 1⟩, ⟨.LEFT_BRACE, "\x7b", none, 1⟩,
     ⟨.RIGHT_BRACE, "\x7d", none, 1⟩, ⟨.EOF, "", none, 1⟩]

/-- Token stream of 256 comma-separated arguments then `)`, as
`finish_call` sees it after the opening parenthesis was consumed. -/
def argToks256 : List Token :=
  sepList numTok commaTok 255 ++ [⟨.RIGHT_PAREN, ")", none, 1⟩, ⟨.EOF, "", none, 1⟩]

/-- Token stream of 255 comma-separated arguments then `)`. -/
def argToks255 : List Token :=
  sepList numTok commaTok 254 ++ [⟨.RIGHT_PAREN, ")", none, 1⟩, ⟨.EOF, "", none, 1⟩]

/-- State preservation property used across the interpreter theorems: the
current environment is unchanged and the standard output only grew. -/
def Pres (σ σ' : IState) : Prop :=
  σ'.env = σ.env ∧ ∃ d, σ'.output = σ.output ++ d

end Pylox

namespace Pylox

theorem Pres.refl (σ : IState) : Pres σ σ := ⟨rfl, [], by simp⟩

theorem Pres.trans {σ₁ σ₂ σ₃ : IState} (h₁ : Pres σ₁ σ₂) (h₂ : Pres σ₂ σ₃) :
    Pres σ₁ σ₃ := by
  obtain ⟨he₁, d₁, ho₁⟩ := h₁
  obtain ⟨he₂, d₂, ho₂⟩ := h₂
  exact ⟨he₂.trans he₁, d₁ ++ d₂, by rw [ho₂, ho₁, List.append_assoc]⟩

theorem pres_envDefine (σ : IState) (i : Nat) (n : String) (v : Value) :
    Pres σ (envDefine σ i n v) :=
  ⟨rfl, [], by simp [envDefine, IState.setEnv]⟩

theorem pres_alloc (σ : IState) (enc : Option Nat) : Pres σ (σ.alloc enc).2 :=
  ⟨rfl, [], by simp [IState.alloc]⟩

theorem pres_defineParams (σ : IState) (i : Nat) :
    ∀ (ps : List Token) (vs : List Value), Pres σ (defineParams σ i ps vs) := by
  intro ps
  induction ps generalizing σ with
  | nil => intro vs; cases vs <;> exact Pres.refl σ
  | cons p ps ih =>
      intro vs
      cases vs with
      | nil => exact Pres.refl σ
      | cons v vs =>
          exact (pres_envDefine σ i p.lexeme v).trans (ih _ _)

theorem pres_envAssignAt {σ σ' : IState} {i d : Nat} {n : String} {v : Value}
    (h : envAssignAt σ i d n v = .ok σ') : Pres σ σ' := by
  unfold envAssignAt at h
  cases h₁ : envAncestor σ i d with
  | error e => rw [h₁] at h; cases h
  | ok j => rw [h₁] at h; cases h; exact pres_envDefine σ j n v

theorem pres_envAssign {n : String} {v : Value} :
    ∀ {fuel i : Nat} {σ σ' : IState}, envAssign σ fuel i n v = .ok σ' → Pres σ σ' := by
  intro fuel
  induction fuel with
  | zero => intro i σ σ' h; cases h
  | succ m ih =>
      intro i σ σ' h
      unfold envAssign at h
      by_cases hc : (dictGet (σ.envAt i).values n).isSome
      · rw [if_pos hc] at h; cases h; exact pres_envDefine σ i n v
      · rw [if_neg hc] at h
        cases h₂ : (σ.envAt i).enclosing with
        | some j => rw [h₂] at h; exact ih h
        | none => rw [h₂] at h; cases h

end Pylox

namespace Pylox

theorem out_chain {a b c : List OutLine} (h₁ : ∃ d, b = a ++ d) (h₂ : ∃ d, c = b ++ d) :
    ∃ d, c = a ++ d := by
  obtain ⟨d₁, e₁⟩ := h₁
  obtain ⟨d₂, e₂⟩ := h₂
  exact ⟨d₁ ++ d₂, by rw [e₂, e₁, List.append_assoc]⟩

set_option maxHeartbeats 1600000

theorem presAll : ∀ fuel : Nat,
    (∀ e σ, Pres σ (evalExpr fuel e σ).2) ∧
    (∀ es σ, Pres σ (evalArgs fuel es σ).2) ∧
    (∀ clos name params body args σ,
      Pres σ (callFunction fuel clos name params body args σ).2) ∧
    (∀ s σ, Pres σ (execStmt fuel s σ).2) ∧
    (∀ ss σ, Pres σ (execStmts fuel ss σ).2) ∧
    (∀ c σ, Pres σ (forCond fuel c σ).2) ∧
    (∀ c inc b σ, Pres σ (forLoop fuel c inc b σ).2) ∧
    (∀ c b σ, Pres σ (whileLoop fuel c b σ).2) := by
  intro fuel
  induction fuel with
  | zero =>
      refine ⟨fun e σ => Pres.refl σ, fun es σ => ?_, fun a b c d e σ => Pres.refl σ,
        fun s σ => Pres.refl σ, fun ss σ => ?_, fun c σ => Pres.refl σ,
        fun c i b σ => Pres.refl σ, fun c b σ => Pres.refl σ⟩
      · cases es <;> exact Pres.refl _
      · cases ss <;> exact Pres.refl _
  | succ n ih =>
      obtain ⟨ihE, ihA, ihC, ihS, ihSS, ihFC, ihF, ihW⟩ := ih
      have stepE : ∀ e σ σ' r, evalExpr n e σ = (r, σ') → Pres σ σ' := by
        intro e σ σ' r h; have := ihE e σ; rw [h] at this; exact this
      have stepA : ∀ es σ σ' r, evalArgs n es σ = (r, σ') → Pres σ σ' := by
        intro es σ σ' r h; have := ihA es σ; rw [h] at this; exact this
      have stepC : ∀ clos name params body args σ σ' r,
          callFunction n clos name params body args σ = (r, σ') → Pres σ σ' := by
        intro clos name params body args σ σ' r h
        have := ihC clos name params body args σ; rw [h] at this; exact this
      have stepS : ∀ s σ σ' r, execStmt n s σ = (r, σ') → Pres σ σ' := by
        intro s σ σ' r h; have := ihS s σ; rw [h] at this; exact this
      have stepSS : ∀ ss σ σ' r, execStmts n ss σ = (r, σ') → Pres σ σ' := by
        intro ss σ σ' r h; have := ihSS ss σ; rw [h] at this; exact this
      have stepFC : ∀ c σ σ' r, forCond n c σ = (r, σ') → Pres σ σ' := by
        intro c σ σ' r h; have := ihFC c σ; rw [h] at this; exact this
      have stepF : ∀ c inc b σ σ' r, forLoop n c inc b σ = (r, σ') → Pres σ σ' := by
        intro c inc b σ σ' r h; have := ihF c inc b σ; rw [h] at this; exact this
      have stepW : ∀ c b σ σ' r, whileLoop n c b σ = (r, σ') → Pres σ σ' := by
        intro c b σ σ' r h; have := ihW c b σ; rw [h] at this; exact this
      refine ⟨?_, ?_, ?_, ?_, ?_, ?_, ?_, ?_⟩
      -- evalExpr
      · intro e σ
        cases e with
        | assign eid name value =>
            simp only [evalExpr]
            split
            next s σ₁ heq => exact stepE _ _ _ _ heq
            next v σ₁ heq =>
              have p₁ := stepE _ _ _ _ heq
              split
              next d hd =>
                split
                next σ₂ h₃ => exact p₁.trans (pres_envAssignAt h₃)
                next er h₃ => exact p₁
              next hd =>
                split
                next σ₂ h₃ => exact p₁.trans (pres_envAssign h₃)
                next er h₃ => exact p₁
        | binary l op r =>
            simp only [evalExpr]
            split
            next s σ₁ heq => exact stepE _ _ _ _ heq
            next lv σ₁ heq =>
              have p₁ := stepE _ _ _ _ heq
              split
              next s σ₂ heq₂ => exact p₁.trans (stepE _ _ _ _ heq₂)
              next rv σ₂ heq₂ =>
                have p₂ := p₁.trans (stepE _ _ _ _ heq₂)
                split <;> exact p₂
        | call callee args =>
            simp only [evalExpr]
            split
            next s σ₁ heq => exact stepE _ _ _ _ heq
            next f σ₁ heq =>
              have p₁ := stepE _ _ _ _ heq
              split
              next clos nm params body =>
                split
                next hl => exact p₁
                next hl =>
                  split
                  next s σ₂ heq₂ => exact p₁.trans (stepA _ _ _ _ heq₂)
                  next vs σ₂ heq₂ =>
                    have p₂ := p₁.trans (stepA _ _ _ _ heq₂)
                    rcases h₃ : callFunction n clos nm params body vs σ₂ with ⟨r₃, σ₃⟩
                    exact p₂.trans (stepC _ _ _ _ _ _ _ _ h₃)
              next hnf => exact p₁
        | get obj name => exact Pres.refl σ
        | grouping inner =>
            simp only [evalExpr]
            rcases h₁ : evalExpr n inner σ with ⟨r₁, σ₁⟩
            exact stepE _ _ _ _ h₁
        | literal v => exact Pres.refl σ
        | logical l op r =>
            simp only [evalExpr]
            split
            next s σ₁ heq => exact stepE _ _ _ _ heq
            next lv σ₁ heq =>
              have p₁ := stepE _ _ _ _ heq
              split
              · split
                · exact p₁
                · rcases h₂ : evalExpr n r σ₁ with ⟨r₂, σ₂⟩
                  exact p₁.trans (stepE _ _ _ _ h₂)
              · split
                · exact p₁
                · rcases h₂ : evalExpr n r σ₁ with ⟨r₂, σ₂⟩
                  exact p₁.trans (stepE _ _ _ _ h₂)
        | setE obj name value => exact Pres.refl σ
        | superE eid kw m => exact Pres.refl σ
        | thisE eid kw => exact Pres.refl σ
        | unary op r =>
            simp only [evalExpr]
            split
            next s σ₁ heq => exact stepE _ _ _ _ heq
            next rv σ₁ heq =>
              have p₁ := stepE _ _ _ _ heq
              split <;> exact p₁
        | var eid name =>
            simp only [evalExpr]
            split
            next d hd => split <;> exact Pres.refl σ
            next hd => split <;> exact Pres.refl σ
      -- evalArgs
      · intro es σ
        cases es with
        | nil => exact Pres.refl σ
        | cons a as =>
            simp only [evalArgs]
            split
            next s σ₁ heq => exact stepE _ _ _ _ heq
            next v σ₁ heq =>
              have p₁ := stepE _ _ _ _ heq
              split
              next s σ₂ heq₂ => exact p₁.trans (stepA _ _ _ _ heq₂)
              next vs σ₂ heq₂ => exact p₁.trans (stepA _ _ _ _ heq₂)
      -- callFunction
      · intro clos name params body args σ
        simp only [callFunction, IState.alloc]
        split
        next hl => exact ⟨rfl, [], by simp⟩
        next hl =>
          have hdp := (pres_defineParams
            { σ with heap := σ.heap ++ [⟨[], some clos⟩] } σ.heap.length params args).2
          split
          next σ₄ heq => exact ⟨rfl, out_chain hdp (stepS _ _ _ _ heq).2⟩
          next v σ₄ heq => exact ⟨rfl, out_chain hdp (stepS _ _ _ _ heq).2⟩
          next er σ₄ heq => exact ⟨rfl, out_chain hdp (stepS _ _ _ _ heq).2⟩
          next σ₄ heq => exact ⟨rfl, out_chain hdp (stepS _ _ _ _ heq).2⟩
      -- execStmt
      · intro s σ
        cases s with
        | block ss =>
            simp only [execStmt, IState.alloc]
            exact ⟨rfl, (ihSS ss _).2⟩
        | classS nm sup ms => exact Pres.refl σ
        | exprS e =>
            simp only [execStmt]
            split
            next σ₁ heq => exact stepE _ _ _ _ heq
            next s σ₁ heq => exact stepE _ _ _ _ heq
        | funS nm params body =>
            simp only [execStmt]
            exact pres_envDefine σ σ.env nm.lexeme (.fn σ.env nm params body)
        | forS ini c inc b =>
            simp only [execStmt, IState.alloc]
            refine ⟨rfl, ?_⟩
            split
            next i =>
              split
              next sg σ₄ heq =>
                exact out_chain ⟨[OutLine.debugRepr i], rfl⟩ (stepS _ _ _ _ heq).2
              next σ₄ heq =>
                have hout := out_chain (⟨[OutLine.debugRepr i], rfl⟩ :
                    ∃ d, σ.output ++ [OutLine.debugRepr i] = σ.output ++ d)
                  (stepS _ _ _ _ heq).2
                exact out_chain hout (ihF c inc b σ₄).2
            next =>
              exact (ihF c inc b _).2
        | ifS c t e =>
            simp only [execStmt]
            split
            next s σ₁ heq => exact stepE _ _ _ _ heq
            next cv σ₁ heq =>
              have p₁ := stepE _ _ _ _ heq
              split
              · rcases h₂ : execStmt n t σ₁ with ⟨r₂, σ₂⟩
                exact p₁.trans (stepS _ _ _ _ h₂)
              · split
                next es =>
                  rcases h₂ : execStmt n es σ₁ with ⟨r₂, σ₂⟩
                  exact p₁.trans (stepS _ _ _ _ h₂)
                next => exact p₁
        | print e =>
            simp only [execStmt]
            split
            next s σ₁ heq => exact stepE _ _ _ _ heq
            next v σ₁ heq =>
              exact (stepE _ _ _ _ heq).trans ⟨rfl, [OutLine.printed (as_str v)], rfl⟩
        | ret kw value =>
            simp only [execStmt]
            split
            next e =>
              split
              next s σ₁ heq => exact stepE _ _ _ _ heq
              next v σ₁ heq => exact stepE _ _ _ _ heq
            next => exact Pres.refl σ
        | varS nm ini =>
            simp only [execStmt]
            split
            next e =>
              split
              next s σ₁ heq => exact stepE _ _ _ _ heq
              next v σ₁ heq =>
                exact (stepE _ _ _ _ heq).trans (pres_envDefine σ₁ σ₁.env nm.lexeme v)
            next => exact pres_envDefine σ σ.env nm.lexeme .nil
        | whileS c b =>
            simp only [execStmt]
            rcases h₁ : whileLoop n c b σ with ⟨r₁, σ₁⟩
            exact stepW _ _ _ _ _ h₁
      -- execStmts
      · intro ss σ
        cases ss with
        | nil => exact Pres.refl σ
        | cons s rest =>
            simp only [execStmts]
            split
            next sg σ₁ heq => exact stepS _ _ _ _ heq
            next σ₁ heq =>
              have p₁ := stepS _ _ _ _ heq
              rcases h₂ : execStmts n rest σ₁ with ⟨r₂, σ₂⟩
              exact p₁.trans (stepSS _ _ _ _ h₂)
      -- forCond
      · intro c σ
        cases c with
        | none => exact Pres.refl σ
        | some ce =>
            simp only [forCond]
            split
            next σ₁ heq => exact stepE _ _ _ _ heq
            next s σ₁ heq => exact stepE _ _ _ _ heq
      -- forLoop
      · intro c inc b σ
        simp only [forLoop]
        split
        next s σ₁ heq => exact stepFC _ _ _ _ heq
        next σ₁ heq => exact stepFC _ _ _ _ heq
        next σ₁ heq =>
          have p₁ := stepFC _ _ _ _ heq
          split
          next sg σ₂ heq₂ => exact p₁.trans (stepS _ _ _ _ heq₂)
          next σ₂ heq₂ =>
            have p₂ := p₁.trans (stepS _ _ _ _ heq₂)
            split
            next ie =>
              split
              next s σ₃ heq₃ => exact p₂.trans (stepE _ _ _ _ heq₃)
              next σ₃ heq₃ =>
                have p₃ := p₂.trans (stepE _ _ _ _ heq₃)
                rcases h₄ : forLoop n c (some ie) b σ₃ with ⟨r₄, σ₄⟩
                exact p₃.trans (stepF _ _ _ _ _ _ h₄)
            next =>
              rcases h₄ : forLoop n c none b σ₂ with ⟨r₄, σ₄⟩
              exact p₂.trans (stepF _ _ _ _ _ _ h₄)
      -- whileLoop
      · intro c b σ
        simp only [whileLoop]
        split
        next s σ₁ heq => exact stepE _ _ _ _ heq
        next cv σ₁ heq =>
          have p₁ := stepE _ _ _ _ heq
          split
          · exact p₁
          · split
            next sg σ₂ heq₂ => exact p₁.trans (stepS _ _ _ _ heq₂)
            next σ₂ heq₂ =>
              have p₂ := p₁.trans (stepS _ _ _ _ heq₂)
              rcases h₃ : whileLoop n c b σ₂ with ⟨r₃, σ₃⟩
              exact p₂.trans (stepW _ _ _ _ _ h₃)

end Pylox

namespace Pylox

/-! ### Helper lemmas for the scanner run-out behaviour

`digitLoop`/`identLoop` model the `while` loops inside `Scanner._number` /
`Scanner._identifier`; when the token runs to the end of the input, the next
`current_char` access raises `IndexError` (list indexing past the end in
`Source.current_char`). -/

theorem digit_not_newline {c : Char} (h : c.isDigit = true) : c ≠ '\n' :=
  fun e => absurd (e ▸ h) (by decide)

theorem digitLoop_runs_out :
    ∀ (k fuel : Nat) (st : ScanSt), st.text.length - st.pos = k → k < fuel →
      st.pos ≤ st.text.length →
      (∀ i, st.pos ≤ i → i < st.text.length → ((st.text.get? i).getD ' ').isDigit = true) →
      digitLoop fuel st = (some .indexError, ⟨st.text, st.text.length, st.lines_seen⟩) := by
  intro k
  induction k with
  | zero =>
      intro fuel st hk hf hle hall
      have hpos : st.pos = st.text.length := by omega
      cases fuel with
      | zero => omega
      | succ f =>
          simp only [digitLoop, ScanSt.current_char]
          have : st.text.get? st.pos = none := by
            rw [List.get?_eq_none]
            omega
          rw [this]
          cases st
          simp only at hpos
          simp [hpos]
  | succ k ihk =>
      intro fuel st hk hf hle hall
      have hlt : st.pos < st.text.length := by omega
      cases fuel with
      | zero => omega
      | succ f =>
          simp only [digitLoop, ScanSt.current_char]
          cases hc : st.text.get? st.pos with
          | none => exfalso; rw [List.get?_eq_none] at hc; omega
          | some c =>
          have hcd : c.isDigit = true := by
            have := hall st.pos le_rfl hlt
            rw [hc] at this
            exact this
          simp only [hcd, if_pos]
          have hadv : st.advance = ⟨st.text, st.pos + 1, st.lines_seen⟩ := by
            simp only [ScanSt.advance, hc]
            rw [if_neg (digit_not_newline hcd)]
          rw [hadv]
          have := ihk f ⟨st.text, st.pos + 1, st.lines_seen⟩ (by simp; omega) (by omega)
            (by simp; omega) (by intro i h1 h2; exact hall i (by simp at h1; omega) h2)
          simpa using this

theorem not_space_of_isDigit {c : Char} (h : c.isDigit = true) : pyIsSpace c = false := by
  cases hs : pyIsSpace c
  · rfl
  · exfalso
    have hx : c = ' ' ∨ c = '\t' ∨ c = '\n' ∨ c = '\x0d' ∨ c = '\x0b' ∨ c = '\x0c' := by
      simpa [pyIsSpace, or_assoc] using hs
    rcases hx with rfl | rfl | rfl | rfl | rfl | rfl <;> exact absurd h (by decide)

theorem identLoop_runs_out :
    ∀ (k fuel : Nat) (st : ScanSt), st.text.length - st.pos = k → k < fuel →
      st.pos ≤ st.text.length →
      (∀ i, st.pos ≤ i → i < st.text.length → ((st.text.get? i).getD ' ').isAlpha = true) →
      identLoop fuel st = (some .indexError, ⟨st.text, st.text.length, st.lines_seen⟩) := by
  intro k
  induction k with
  | zero =>
      intro fuel st hk hf hle hall
      have hpos : st.pos = st.text.length := by omega
      cases fuel with
      | zero => omega
      | succ f =>
          simp only [identLoop, ScanSt.current_char]
          have : st.text.get? st.pos = none := by
            rw [List.get?_eq_none]
            omega
          rw [this]
          cases st
          simp only at hpos
          simp [hpos]
  | succ k ihk =>
      intro fuel st hk hf hle hall
      have hlt : st.pos < st.text.length := by omega
      cases fuel with
      | zero => omega
      | succ f =>
          simp only [identLoop, ScanSt.current_char]
          cases hc : st.text.get? st.pos with
          | none => exfalso; rw [List.get?_eq_none] at hc; omega
          | some c =>
          have hca : c.isAlpha = true := by
            have := hall st.pos le_rfl hlt
            rw [hc] at this
            exact this
          have hcond : (c.isAlphanum || decide (c = '_')) = true := by
            simp [Char.isAlphanum, hca]
          simp only [hcond, if_pos]
          have hnl : c ≠ '\n' := fun e => absurd (e ▸ hca) (by decide)
          have hadv : st.advance = ⟨st.text, st.pos + 1, st.lines_seen⟩ := by
            simp only [ScanSt.advance, hc]
            rw [if_neg hnl]
          rw [hadv]
          have := ihk f ⟨st.text, st.pos + 1, st.lines_seen⟩ (by simp; omega) (by omega)
            (by simp; omega) (by intro i h1 h2; exact hall i (by simp at h1; omega) h2)
          simpa using this

theorem extract_digits (fuel : Nat) (st : ScanSt) (c : Char)
    (hc : st.text.get? st.pos = some c) (hd : c.isDigit = true)
    (hle : st.pos ≤ st.text.length)
    (hall : ∀ i, st.pos ≤ i → i < st.text.length → ((st.text.get? i).getD ' ').isDigit = true)
    (hf : st.text.length - st.pos < fuel) :
    extract_token_and_advance fuel st =
      (.error .indexError, ⟨st.text, st.text.length, st.lines_seen⟩) := by
  have ne : ∀ (p : Char), p.isDigit = false → ¬(c = p) :=
    fun p hp e => by rw [e, hp] at hd; cases hd
  simp only [extract_token_and_advance, ScanSt.current_char, hc]
  rw [if_neg (ne '(' (by decide)), if_neg (ne ')' (by decide)),
    if_neg (ne '\x7b' (by decide)), if_neg (ne '\x7d' (by decide)),
    if_neg (ne ',' (by decide)), if_neg (ne '.' (by decide)),
    if_neg (ne '-' (by decide)), if_neg (ne '+' (by decide)),
    if_neg (ne ';' (by decide)), if_neg (ne '*' (by decide)),
    if_neg (ne '!' (by decide)), if_neg (ne '=' (by decide)),
    if_neg (ne '<' (by decide)), if_neg (ne '>' (by decide)),
    if_neg (ne '/' (by decide))]
  have hs : ¬(pyIsSpace c = true) := by rw [not_space_of_isDigit hd]; simp
  rw [if_neg hs, if_neg (ne '\x22' (by decide)), if_pos hd]
  simp only [scanNumber]
  rw [digitLoop_runs_out (st.text.length - st.pos) fuel st rfl hf hle hall]

theorem extract_alpha (fuel : Nat) (st : ScanSt) (c : Char)
    (hc : st.text.get? st.pos = some c) (ha : c.isAlpha = true)
    (hle : st.pos ≤ st.text.length)
    (hall : ∀ i, st.pos ≤ i → i < st.text.length → ((st.text.get? i).getD ' ').isAlpha = true)
    (hf : st.text.length - st.pos < fuel) :
    extract_token_and_advance fuel st =
      (.error .indexError, ⟨st.text, st.text.length, st.lines_seen⟩) := by
  have ne : ∀ (p : Char), p.isAlpha = false → ¬(c = p) :=
    fun p hp e => by rw [e, hp] at ha; cases ha
  have hnd : ¬(c.isDigit = true) := by
    intro hd
    have h1 : 48 ≤ c.toNat ∧ c.toNat ≤ 57 := by
      simpa [Char.isDigit, Char.le_def, UInt32.le_def, BitVec.le_def, Char.toNat] using hd
    have h2 : (65 ≤ c.toNat ∧ c.toNat ≤ 90) ∨ (97 ≤ c.toNat ∧ c.toNat ≤ 122) := by
      simpa [Char.isAlpha, Char.isUpper, Char.isLower, UInt32.le_def, BitVec.le_def, Char.toNat,
        ge_iff_le] using ha
    omega
  simp only [extract_token_and_advance, ScanSt.current_char, hc]
  rw [if_neg (ne '(' (by decide)), if_neg (ne ')' (by decide)),
    if_neg (ne '\x7b' (by decide)), if_neg (ne '\x7d' (by decide)),
    if_neg (ne ',' (by decide)), if_neg (ne '.' (by decide)),
    if_neg (ne '-' (by decide)), if_neg (ne '+' (by decide)),
    if_neg (ne ';' (by decide)), if_neg (ne '*' (by decide)),
    if_neg (ne '!' (by decide)), if_neg (ne '=' (by decide)),
    if_neg (ne '<' (by decide)), if_neg (ne '>' (by decide)),
    if_neg (ne '/' (by decide))]
  have hs : ¬(pyIsSpace c = true) := by
    cases hsp : pyIsSpace c
    · simp
    · exfalso
      have hx : c = ' ' ∨ c = '\t' ∨ c = '\n' ∨ c = '\x0d' ∨ c = '\x0b' ∨ c = '\x0c' := by
        simpa [pyIsSpace, or_assoc] using hsp
      rcases hx with rfl | rfl | rfl | rfl | rfl | rfl <;> exact absurd ha (by decide)
  rw [if_neg hs, if_neg (ne '\x22' (by decide)), if_neg hnd,
    if_pos (by simp [ha] : (c.isAlpha || c = '_') = true)]
  simp only [scanIdentifier]
  rw [identLoop_runs_out (st.text.length - st.pos) fuel st rfl hf hle hall]

end Pylox

namespace Pylox

/-- Claim C1: the resolver/interpreter distance contract fails for `for`
statements.  The resolver's `visit_for_stmt` pushes no scope, so for the
top-level program `for (var i = 0; i < 3; i = i + 1) { print i; }` every
reference to `i` is left unresolved (treated as a global, with no recorded
distance) and the resolver reports no error; but the interpreter's
`visit_for_stmt` runs the initializer inside a fresh environment, so `i` is
defined there and the supposedly-global lookup of `i` in the condition raises
`KeyError` instead of yielding the binding the static analysis identified. -/
theorem for_resolver_interpreter_scope_mismatch :
    parserFromSource forSrc = .ok ⟨forToks, 0, [], 0⟩ ∧
    (parse 100 ⟨forToks, 0, [], 0⟩).1 = .ok forProg ∧
    (parse 100 ⟨forToks, 0, [], 0⟩).2.errors = [] ∧
    resolveProgram 100 forProg = (none, ⟨[], [], [], .NONE, .NONE⟩) ∧
    (interpret 100 [] forProg).1 = some (.exc (.keyError "i")) :=
  ⟨by decide, rfl, rfl, rfl, rfl⟩

/-- Claim C2 (counterexample): the program `print 1/0 == 1/0;` does not print
`true`; evaluation of `1/0` raises `ZeroDivisionError` (Python float division
by zero) and nothing is printed. -/
theorem div_zero_program_raises :
    parserFromSource divSrc = .ok ⟨divToks, 0, [], 0⟩ ∧
    (parse 100 ⟨divToks, 0, [], 0⟩).1 = .ok divProg ∧
    resolveProgram 100 divProg = (none, ⟨[], [], [], .NONE, .NONE⟩) ∧
    interpret 100 [] divProg = (some (.exc .zeroDivisionError), initState []) :=
  ⟨by decide, rfl, rfl, rfl⟩

/-- Claim C2 (amended): `/` on two numbers is Python float division, which
raises `ZeroDivisionError` when the divisor is zero, and otherwise yields the
exact quotient; there is no IEEE infinity/NaN path. -/
theorem slash_division_behavior (fuel : Nat) (a b : Rat) (t : Token) (σ : IState)
    (ht : t.token_type = .SLASH) :
    evalExpr (fuel + 2) (.binary (.literal (.num a)) t (.literal (.num b))) σ =
      (if b = 0 then (.error (.exc .zeroDivisionError), σ)
       else (.ok (.num (ratDiv a b)), σ)) := by
  simp only [evalExpr, litToVal, binaryOp, ht, ensure_types, isNum, List.find?,
    Bool.not_true, Bool.not_false]
  by_cases hb : b = 0
  · simp [hb]
  · simp [hb]

/-- Witness for `slash_division_behavior` at concrete inputs: `1 / 0` raises
`ZeroDivisionError` and `1 / 2` yields `1/2`. -/
theorem slash_division_behavior_witness :
    slashTok.token_type = .SLASH ∧
    evalExpr 2 (.binary (.literal (.num 1)) slashTok (.literal (.num 0)))
      (initState []) = (.error (.exc .zeroDivisionError), initState []) ∧
    evalExpr 2 (.binary (.literal (.num 1)) slashTok (.literal (.num 2)))
      (initState []) = (.ok (.num (ratDiv 1 2)), initState []) := by
  refine ⟨rfl, ?_, ?_⟩
  · have h := slash_division_behavior 0 1 0 slashTok (initState []) rfl
    simpa using h
  · have h := slash_division_behavior 0 1 2 slashTok (initState []) rfl
    rw [if_neg (by norm_num)] at h
    exact h

/-- Claim C3 (counterexample): for the two-error source `var; var;` the parser
aborts at the first error: `parse` returns that error (no statement list), the
error list holds the first error twice (once from `consume`, once from the
`parse_declaration` handler) and never the second, and the position stops just
past the first `;`. -/
theorem parse_stops_at_first_error :
    parse 100 ⟨twoErrToks, 0, [], 0⟩ =
      (.error (.parseError ⟨"Expect variable name.", 1⟩),
       ⟨twoErrToks, 2,
        [⟨"Expect variable name.", 1⟩, ⟨"Expect variable name.", 1⟩], 0⟩) := rfl

/-- Claim C3 (amended): on a parse error in a declaration, the parser records
the error (twice: in `consume` and again in the `except` handler) and
synchronizes past the `;`, but then RE-RAISES the error, so `parse` aborts at
the first error instead of resuming: for `var; var;` the second declaration is
never parsed and its error never collected. -/
theorem parse_declaration_error_path :
    parserFromSource twoErrSrc = .ok ⟨twoErrToks, 0, [], 0⟩ ∧
    parse_declaration 100 ⟨twoErrToks, 0, [], 0⟩ =
      (.error (.parseError ⟨"Expect variable name.", 1⟩),
       ⟨twoErrToks, 2,
        [⟨"Expect variable name.", 1⟩, ⟨"Expect variable name.", 1⟩], 0⟩) ∧
    synchronize 100 ⟨twoErrToks, 1,
        [⟨"Expect variable name.", 1⟩, ⟨"Expect variable name.", 1⟩], 0⟩ =
      ⟨twoErrToks, 2,
        [⟨"Expect variable name.", 1⟩, ⟨"Expect variable name.", 1⟩], 0⟩ ∧
    (parse 100 ⟨twoErrToks, 0, [], 0⟩).1 =
      .error (.parseError ⟨"Expect variable name.", 1⟩) :=
  ⟨by decide, rfl, rfl, rfl⟩

/-- Claim C4: scope teardown holds on every exit path.  For every fuel and
state, executing a block or a `for` statement, calling a function, and
evaluating any expression (in particular a call expression) leaves the
interpreter's current environment equal to what it was before entry — whether
the construct completes normally, unwinds via the return signal, raises a
runtime error, or runs out of fuel. -/
theorem env_restored_on_exit :
    ∀ (fuel : Nat) (σ : IState),
      (∀ ss, ((execStmt fuel (.block ss) σ).2).env = σ.env) ∧
      (∀ ini c inc b, ((execStmt fuel (.forS ini c inc b) σ).2).env = σ.env) ∧
      (∀ clos name params body args,
        ((callFunction fuel clos name params body args σ).2).env = σ.env) ∧
      (∀ e, ((evalExpr fuel e σ).2).env = σ.env) := by
  intro fuel σ
  obtain ⟨hE, _, hC, hS, _, _, _, _⟩ := presAll fuel
  exact ⟨fun ss => (hS (.block ss) σ).1,
    fun ini c inc b => (hS (.forS ini c inc b) σ).1,
    fun clos name params body args => (hC clos name params body args σ).1,
    fun e => (hE e σ).1⟩

/-- Claim C5 (counterexample): the top-level `var a = a;` passes the resolver,
but executing it raises `KeyError` for `a` (an uncaught Python exception from
`Environment.get`) instead of binding `a` to nil; the global environment is
left unchanged. -/
theorem global_var_self_init_raises :
    resolveProgram 100 varAProg = (none, ⟨[], [], [], .NONE, .NONE⟩) ∧
    interpret 100 [] varAProg = (some (.exc (.keyError "a")), initState []) :=
  ⟨rfl, rfl⟩

/-- Claim C5 (amended): global `var a = a;` is indeed not a resolver error,
but the runtime read of the not-yet-defined global `a` does not yield nil:
`Environment.get` looks the name up in a plain dict, so it raises
`KeyError("a")` and `a` is never bound. -/
theorem global_var_self_init_behavior :
    parserFromSource varASrc = .ok ⟨varAToks, 0, [], 0⟩ ∧
    (parse 100 ⟨varAToks, 0, [], 0⟩).1 = .ok varAProg ∧
    resolveProgram 100 varAProg = (none, ⟨[], [], [], .NONE, .NONE⟩) ∧
    (interpret 100 [] varAProg).1 = some (.exc (.keyError "a")) ∧
    ((interpret 100 [] varAProg).2).heap = [⟨[], none⟩] :=
  ⟨by decide, rfl, rfl, rfl, rfl⟩

end Pylox

namespace Pylox

/-- Claim C6 (counterexample): a boolean and a number are not always unequal
under `==`: `true == 1` evaluates to `true`, because Python `==` treats `True`
as the number 1. -/
theorem bool_number_equality_coerces :
    evalExpr 2 (.binary (.literal (.bool true)) eqeqTok (.literal (.num 1)))
      (initState []) = (.ok (.bool true), initState []) := rfl

/-- Claim C6 (amended): `==`/`!=` are Python equality, not kind-disjoint
universal equality: `nil == nil` is true, strings and numbers compare by
value, and values of different kinds are unequal EXCEPT that booleans compare
as the numbers 0 and 1 (`true == 1` and `false == 0` hold). -/
theorem equality_operator_semantics :
    evalExpr 2 (.binary (.literal .nil) eqeqTok (.literal .nil))
      (initState []) = (.ok (.bool true), initState []) ∧
    evalExpr 2 (.binary (.literal .nil) bangeqTok (.literal .nil))
      (initState []) = (.ok (.bool false), initState []) ∧
    evalExpr 2 (.binary (.literal (.str "foo")) eqeqTok (.literal (.str "foo")))
      (initState []) = (.ok (.bool true), initState []) ∧
    evalExpr 2 (.binary (.literal (.str "foo")) eqeqTok (.literal (.str "bar")))
      (initState []) = (.ok (.bool false), initState []) ∧
    evalExpr 2 (.binary (.literal (.num 1)) eqeqTok (.literal (.num 1)))
      (initState []) = (.ok (.bool true), initState []) ∧
    evalExpr 2 (.binary (.literal (.num 1)) eqeqTok (.literal (.num 2)))
      (initState []) = (.ok (.bool false), initState []) ∧
    evalExpr 2 (.binary (.literal (.str "1")) eqeqTok (.literal (.num 1)))
      (initState []) = (.ok (.bool false), initState []) ∧
    evalExpr 2 (.binary (.literal .nil) eqeqTok (.literal (.bool false)))
      (initState []) = (.ok (.bool false), initState []) ∧
    evalExpr 2 (.binary (.literal (.bool false)) eqeqTok (.literal (.num 0)))
      (initState []) = (.ok (.bool true), initState []) ∧
    evalExpr 2 (.binary (.literal (.bool true)) eqeqTok (.literal (.num 2)))
      (initState []) = (.ok (.bool false), initState []) ∧
    evalExpr 2 (.binary (.literal (.bool true)) bangeqTok (.literal (.num 1)))
      (initState []) = (.ok (.bool false), initState []) :=
  ⟨rfl, rfl, rfl, rfl, rfl, rfl, rfl, rfl, rfl, rfl, rfl⟩

end Pylox

namespace Pylox

set_option maxRecDepth 100000

set_option maxHeartbeats 1600000

/-- Claim C7 (counterexample): a call with 256 arguments does NOT parse
non-fatally: `finish_call` raises the parse error "Cannot have more than 255
arguments." (after recording it), aborting the parse at that point. -/
theorem call_256_args_aborts_parse :
    finish_call 20000 (.var 0 fTok) ⟨argToks256, 0, [], 1⟩ =
      (.error (.parseError ⟨"Cannot have more than 255 arguments.", 1⟩),
       ⟨argToks256, 510, [⟨"Cannot have more than 255 arguments.", 1⟩], 1⟩) := rfl

/-- Claim C7 (amended): the two arity limits behave differently.  A function
declaration with 256 parameters records "Cannot have more than 255
parameters." non-fatally and parsing continues (all 256 parameters are
consumed and the declaration is produced); but a call with 256 arguments
RAISES "Cannot have more than 255 arguments.", aborting the parse, while 255
arguments parse cleanly. -/
theorem arity_limit_behavior :
    parse_function 20000 .FUNCTION ⟨funToks256, 0, [], 0⟩ =
      (.ok (.funS fTok (List.replicate 256 pTok) (.block [])),
       ⟨funToks256, 516, [⟨"Cannot have more than 255 parameters.", 1⟩], 0⟩) ∧
    finish_call 20000 (.var 0 fTok) ⟨argToks255, 0, [], 1⟩ =
      (.ok (.call (.var 0 fTok) (List.replicate 255 (.literal (.num 1)))),
       ⟨argToks255, 510, [], 1⟩) ∧
    (finish_call 20000 (.var 0 fTok) ⟨argToks256, 0, [], 1⟩).1 =
      .error (.parseError ⟨"Cannot have more than 255 arguments.", 1⟩) :=
  ⟨rfl, rfl, rfl⟩

/-- Claim C8 (counterexample): a scan error does not let scanning continue:
for `1 @ 2;` the scanner stops at `@` and `scan_tokens` returns the scan error
instead of a token list for the rest of the source. -/
theorem scan_error_aborts_scanning :
    scan_tokens "1 @ 2;" = .error (.scanError "Unexpected character: @" 1) := by
  decide

/-- Claim C8 (amended): `scan_tokens` catches only `IndexError` and
`WhiteSpaceError`, so a `PyloxScanError` (unexpected character or unterminated
string) propagates and aborts the scan at the first malformed token — no token
list is returned and later errors are never collected — while a well-formed
source still scans to a full token list. -/
theorem scanner_error_behavior :
    scan_tokens "@" = .error (.scanError "Unexpected character: @" 1) ∧
    scan_tokens "\x22ab" = .error (.scanError "Unterminated string." 1) ∧
    scan_tokens "@ var x;" = .error (.scanError "Unexpected character: @" 1) ∧
    scan_tokens "1;" = .ok [⟨.NUMBER, "1", some (.num 1), 1⟩,
      ⟨.SEMICOLON, ";", none, 1⟩, ⟨.EOF, "", none, 1⟩] := by
  refine ⟨by decide, by decide, by decide, by decide⟩

end Pylox

namespace Pylox

/-- Claim C9: a source that ends in the middle of a number or identifier token
silently loses that final token.  The in-progress token scan reads past
end-of-input, `Source.current_char` raises `IndexError`, and `scan_tokens`
treats that as end-of-scan: for ANY nonempty all-digit source and any nonempty
all-letter source — in particular the exact source `123` — `scan_tokens`
returns only the EOF token. -/
theorem trailing_token_dropped :
    (∀ cs : List Char, cs ≠ [] → (∀ c ∈ cs, c.isDigit = true) →
      scan_tokens (String.mk cs) = .ok [⟨.EOF, "", none, 1⟩]) ∧
    (∀ cs : List Char, cs ≠ [] → (∀ c ∈ cs, c.isAlpha = true) →
      scan_tokens (String.mk cs) = .ok [⟨.EOF, "", none, 1⟩]) ∧
    scan_tokens "123" = .ok [⟨.EOF, "", none, 1⟩] := by
  refine ⟨?_, ?_, by decide⟩
  · intro cs hne hall
    obtain ⟨c, rest, rfl⟩ : ∃ c rest, cs = c :: rest := by
      cases cs with
      | nil => exact absurd rfl hne
      | cons c rest => exact ⟨c, rest, rfl⟩
    have h0 : scan_tokens (String.mk (c :: rest)) =
        scanLoop ((c :: rest).length + 1) ⟨c :: rest, 0, 0⟩ := rfl
    rw [h0]
    have hall' : ∀ i, (0 : Nat) ≤ i → i < (c :: rest).length →
        (((c :: rest).get? i).getD ' ').isDigit = true := by
      intro i _ hi
      cases hgi : (c :: rest).get? i with
      | none => rw [List.get?_eq_none] at hgi; omega
      | some x =>
          have hx : x ∈ c :: rest := List.get?_mem hgi
          simpa using hall x hx
    have hx := extract_digits ((c :: rest).length + 1) ⟨c :: rest, 0, 0⟩ c rfl
      (hall c (by simp)) (by simp) hall' (by simp)
    show scanLoop (rest.length + 1 + 1) ⟨c :: rest, 0, 0⟩ = _
    simp only [scanLoop]
    rw [show (⟨c :: rest, 0, 0⟩ : ScanSt).text.length + 1 = (c :: rest).length + 1 from rfl]
    rw [hx]
    rfl
  · intro cs hne hall
    obtain ⟨c, rest, rfl⟩ : ∃ c rest, cs = c :: rest := by
      cases cs with
      | nil => exact absurd rfl hne
      | cons c rest => exact ⟨c, rest, rfl⟩
    have h0 : scan_tokens (String.mk (c :: rest)) =
        scanLoop ((c :: rest).length + 1) ⟨c :: rest, 0, 0⟩ := rfl
    rw [h0]
    have hall' : ∀ i, (0 : Nat) ≤ i → i < (c :: rest).length →
        (((c :: rest).get? i).getD ' ').isAlpha = true := by
      intro i _ hi
      cases hgi : (c :: rest).get? i with
      | none => rw [List.get?_eq_none] at hgi; omega
      | some x =>
          have hx : x ∈ c :: rest := List.get?_mem hgi
          simpa using hall x hx
    have hx := extract_alpha ((c :: rest).length + 1) ⟨c :: rest, 0, 0⟩ c rfl
      (hall c (by simp)) (by simp) hall' (by simp)
    show scanLoop (rest.length + 1 + 1) ⟨c :: rest, 0, 0⟩ = _
    simp only [scanLoop]
    rw [show (⟨c :: rest, 0, 0⟩ : ScanSt).text.length + 1 = (c :: rest).length + 1 from rfl]
    rw [hx]
    rfl

/-- Witness for `trailing_token_dropped` at concrete inputs: the sources `42`
and `xy` both scan to just the EOF token. -/
theorem trailing_token_dropped_witness :
    (['4', '2'] : List Char) ≠ [] ∧ (∀ c ∈ (['4', '2'] : List Char), c.isDigit = true) ∧
    scan_tokens (String.mk ['4', '2']) = .ok [⟨.EOF, "", none, 1⟩] ∧
    (['x', 'y'] : List Char) ≠ [] ∧ (∀ c ∈ (['x', 'y'] : List Char), c.isAlpha = true) ∧
    scan_tokens (String.mk ['x', 'y']) = .ok [⟨.EOF, "", none, 1⟩] :=
  ⟨by decide, by decide,
   trailing_token_dropped.1 ['4', '2'] (by decide) (by decide),
   by decide, by decide,
   trailing_token_dropped.2.1 ['x', 'y'] (by decide) (by decide)⟩

/-- Claim C10: executing any `for` statement with a present initializer first
writes the initializer AST node's representation to standard output (the
leftover `print(stmt.initializer)` debug line), before anything the loop
itself prints: whatever the loop does afterwards, the output stream extends
the prior output with that debug line followed by the loop's own output. -/
theorem for_initializer_debug_output (fuel : Nat) (ini : Stmt) (c inc : Option Expr)
    (b : Stmt) (σ : IState) (hf : fuel ≠ 0) :
    ∃ rest, ((execStmt fuel (.forS (some ini) c inc b) σ).2).output
      = σ.output ++ OutLine.debugRepr ini :: rest := by
  obtain ⟨m, rfl⟩ : ∃ m, fuel = m + 1 := ⟨fuel - 1, by omega⟩
  obtain ⟨_, _, _, hS, _, _, hF, _⟩ := presAll m
  simp only [execStmt, IState.alloc]
  rcases h₁ : execStmt m ini
      { σ with heap := σ.heap ++ [⟨[], some σ.env⟩],
               env := σ.heap.length,
               output := σ.output ++ [OutLine.debugRepr ini] } with ⟨r₁, σ₄⟩
  have p₁ := hS ini { σ with heap := σ.heap ++ [⟨[], some σ.env⟩], env := σ.heap.length, output := σ.output ++ [OutLine.debugRepr ini] }
  rw [h₁] at p₁
  obtain ⟨d₁, hd₁⟩ := p₁.2
  replace hd₁ : σ₄.output = (σ.output ++ [OutLine.debugRepr ini]) ++ d₁ := hd₁
  cases r₁ with
  | some sg =>
      refine ⟨d₁, ?_⟩
      show σ₄.output = σ.output ++ OutLine.debugRepr ini :: d₁
      rw [hd₁]; simp
  | none =>
      rcases h₂ : forLoop m c inc b σ₄ with ⟨r₂, σ₅⟩
      have p₂ : Pres σ₄ σ₅ := by have := hF c inc b σ₄; rw [h₂] at this; exact this
      obtain ⟨d₂, hd₂⟩ := p₂.2
      replace hd₂ : σ₅.output = σ₄.output ++ d₂ := hd₂
      refine ⟨d₁ ++ d₂, ?_⟩
      show (forLoop m c inc b σ₄).2.output = σ.output ++ OutLine.debugRepr ini :: (d₁ ++ d₂)
      rw [h₂]
      show σ₅.output = σ.output ++ OutLine.debugRepr ini :: (d₁ ++ d₂)
      rw [hd₂, hd₁]; simp

/-- Witness for `for_initializer_debug_output` at a concrete input: executing
`for (var i = 0;;) {}` with fuel 5 from the initial state produces an
output stream starting with the debug representation of `var i = 0;`. -/
theorem for_initializer_debug_output_witness :
    (5 : Nat) ≠ 0 ∧
    ∃ rest, ((execStmt 5 (.forS (some (.varS iTok (some (.literal (.num 0)))))
        none none (.block [])) (initState [])).2).output
      = (initState []).output
        ++ OutLine.debugRepr (.varS iTok (some (.literal (.num 0)))) :: rest :=
  ⟨by decide,
   for_initializer_debug_output 5 (.varS iTok (some (.literal (.num 0))))
     none none (.block []) (initState []) (by decide)⟩

end Pylox
